import Mathlib

/-!
Verification of the structural pruning engine of the FOSVOS repository
(`src/prune.py`, acting on the network of `src/networks/osvos_resnet.py`).

The shallow embedding below translates the PyTorch modules into plain Lean
records.  A convolution weight tensor has shape
(out_channels, in_channels, kh, kw); every pruning operation copies whole
spatial kernels, so the two spatial dimensions are collapsed into a single
opaque `Int` entry and a weight is a matrix `List (List Int)` indexed
`[out_channel][in_channel]`.  The numpy slice-copy idiom

    new[:i] = old[:i]; new[i:] = old[i+1:]

succeeds exactly when `i` is at most the old leading dimension minus one
(otherwise the two slices have different lengths and numpy raises a
broadcast error), and then it deletes entry `i`; fallible operations are
therefore embedded as `Option`-valued functions whose `none` is the raised
exception.
-/

/-- Embedding of `torch.nn.Conv2d` as used by `prune.py`: declared channel
counts, the hyper-parameters that `prune_convolution` carries over
(`kernel_size`, `stride`, `padding`, `dilation`, `groups`), the weight
matrix (spatial kernel dimensions collapsed, see the file header) and an
optional bias vector (`bias=False` is `none`). -/
structure Conv2d where
  in_channels : Nat
  out_channels : Nat
  kernel_size : Nat
  stride : Nat
  padding : Nat
  dilation : Nat
  groups : Nat
  weight : List (List Int)
  bias : Option (List Int)
  deriving Repr, DecidableEq

/-- Embedding of `torch.nn.BatchNorm2d`: feature count, the scalar
hyper-parameters carried over by `prune_batchnorm` (`eps`, `momentum`,
`affine`), the affine parameters and the running statistics. -/
structure BatchNorm2d where
  num_features : Nat
  eps : Int
  momentum : Int
  affine : Bool
  weight : List Int
  bias : List Int
  running_mean : List Int
  running_var : List Int
  deriving Repr, DecidableEq

/-- A residual downsample path: `nn.Sequential(conv, batchnorm)`. -/
structure Downsample where
  conv : Conv2d
  bn : BatchNorm2d
  deriving Repr, DecidableEq

/-- Embedding of `BasicBlock` / `BasicBlockDummy`: two convolutions, two
batch norms, an optional downsample path and the block stride (the ReLU is
stateless and carries no parameters, so it is not represented). -/
structure Block where
  conv1 : Conv2d
  bn1 : BatchNorm2d
  conv2 : Conv2d
  bn2 : BatchNorm2d
  downsample : Option Downsample
  stride : Nat
  deriving Repr, DecidableEq

/-- Embedding of `OSVOS_RESNET(version=18)` restricted to the parts the
pruning engine touches: the stem (`layer_base[0]` convolution and
`layer_base[1]` batch norm; the ReLU and max-pool carry no parameters),
the four residual stages of two blocks each (`net.layer_stages`), and the
four per-stage `side_prep` convolutions.  The constructor of
`OSVOS_RESNET` always builds exactly four stages with two `BasicBlock`s
each for version 18, which is the only version the pruning script
instantiates, so the stages are explicit fields. -/
structure Net where
  layer_base_conv : Conv2d
  layer_base_bn : BatchNorm2d
  stage1 : Block × Block
  stage2 : Block × Block
  stage3 : Block × Block
  stage4 : Block × Block
  side_prep1 : Conv2d
  side_prep2 : Conv2d
  side_prep3 : Conv2d
  side_prep4 : Conv2d
  deriving Repr, DecidableEq

/-- Reading `net.layer_stages[i]`: indexing the four stages, `none` is the
`IndexError` raised on an out-of-range index. -/
def getStage (net : Net) (i : Nat) : Option (Block × Block) :=
  match i with
  | 0 => some net.stage1
  | 1 => some net.stage2
  | 2 => some net.stage3
  | 3 => some net.stage4
  | _ => none

/-- Assignment `net.layer_stages[i] = v` for an index already validated by a read. -/
def setStage (net : Net) (i : Nat) (v : Block × Block) : Net :=
  match i with
  | 0 => { net with stage1 := v }
  | 1 => { net with stage2 := v }
  | 2 => { net with stage3 := v }
  | 3 => { net with stage4 := v }
  | _ => net

/-- Reading `net.side_prep[i]`. -/
def getSidePrep (net : Net) (i : Nat) : Option Conv2d :=
  match i with
  | 0 => some net.side_prep1
  | 1 => some net.side_prep2
  | 2 => some net.side_prep3
  | 3 => some net.side_prep4
  | _ => none

/-- Assignment `net.side_prep[i] = v` for an index already validated by a read. -/
def setSidePrep (net : Net) (i : Nat) (v : Conv2d) : Net :=
  match i with
  | 0 => { net with side_prep1 := v }
  | 1 => { net with side_prep2 := v }
  | 2 => { net with side_prep3 := v }
  | 3 => { net with side_prep4 := v }
  | _ => net

/-- Function `prune_convolution(conv, filter_index, is_reducing_channels_out, ...)`
from `src/prune.py`.  A fresh `Conv2d` is built with one fewer output
(resp. input) channel, `bias=False`, and all other hyper-parameters
copied; the numpy slice-copy then overwrites every fresh weight entry
with the old weights minus row (resp. column) `filter_index`.  The copy
raises (`none`) exactly when `filter_index` is outside the old leading
(resp. second) dimension. -/
def conv_drop_out (conv : Conv2d) (filter_index : Nat) : Conv2d :=
  { conv with
      out_channels := conv.out_channels - 1,
      weight := conv.weight.eraseIdx filter_index,
      bias := none }

def conv_drop_in (conv : Conv2d) (filter_index : Nat) : Conv2d :=
  { conv with
      in_channels := conv.in_channels - 1,
      weight := conv.weight.map (fun r => r.eraseIdx filter_index),
      bias := none }

def prune_convolution (conv : Conv2d) (filter_index : Nat)
    (is_reducing_channels_out : Bool) : Option Conv2d :=
  if is_reducing_channels_out then
    if filter_index < conv.out_channels then
      some (conv_drop_out conv filter_index)
    else none
  else
    if filter_index < conv.in_channels then
      some (conv_drop_in conv filter_index)
    else none

/-- Function `prune_batchnorm(batchnorm_old, filter_index, ...)` from
`src/prune.py`.  A fresh `BatchNorm2d` with one fewer feature is built
(in the source's torch version `reset_parameters` draws the scale
uniformly at random — every entry is then overwritten by the slice copy —
and sets `bias` to zeros, `running_mean` to zeros and `running_var` to
ones); only the scale vector (`weight`) is copied over with entry
`filter_index` deleted.  The bias and the running statistics of the old
layer are NOT transferred. -/
def bn_drop (batchnorm_old : BatchNorm2d) (filter_index : Nat) : BatchNorm2d :=
  { num_features := batchnorm_old.num_features - 1,
    eps := batchnorm_old.eps,
    momentum := batchnorm_old.momentum,
    affine := batchnorm_old.affine,
    weight := batchnorm_old.weight.eraseIdx filter_index,
    bias := List.replicate (batchnorm_old.num_features - 1) 0,
    running_mean := List.replicate (batchnorm_old.num_features - 1) 0,
    running_var := List.replicate (batchnorm_old.num_features - 1) 1 }

def prune_batchnorm (batchnorm_old : BatchNorm2d) (filter_index : Nat) :
    Option BatchNorm2d :=
  if filter_index < batchnorm_old.num_features then
    some (bn_drop batchnorm_old filter_index)
  else none

/-- A downsample path as synthesized inside `prune_resnet18_conv_layer`
and initialized by `init_downsample`: a 1×1 convolution with `stride=1`,
`bias=False` and weights drawn from `normal_(0, 0.001)` (modelled as
zeros — no statement below concerns these random values), followed by a
fresh `BatchNorm2d` whose scale is filled with 1 and bias with 0. -/
def mk_downsample (c_in c_out : Nat) : Downsample :=
  { conv := { in_channels := c_in,
              out_channels := c_out,
              kernel_size := 1,
              stride := 1,
              padding := 0,
              dilation := 1,
              groups := 1,
              weight := List.replicate c_out (List.replicate c_in 0),
              bias := none },
    bn := { num_features := c_out,
            eps := 0,
            momentum := 0,
            affine := true,
            weight := List.replicate c_out 1,
            bias := List.replicate c_out 0,
            running_mean := List.replicate c_out 0,
            running_var := List.replicate c_out 1 } }

/-- Function `prune_resnet18_conv_layer(net, layer_index, filter_index)` from
`src/prune.py`.  The source mutates `net` in place and re-raises any
exception from the numpy copies; the embedding returns `.ok net'` for a
completed call and `.error s` for a raised exception, where `s` is the
network state at the moment the exception propagates (the source assigns
to `net.layer_base` / `net.layer_stages[...]` / `net.side_prep[...]` at
specific program points, so an exception after such an assignment leaves
the network partially mutated; the embedding mirrors those assignment
points exactly). -/
def prune_resnet18_conv_layer (net : Net) (layer_index filter_index : Nat) :
    Except Net Net :=
  if layer_index = 0 then
    let conv_old := net.layer_base_conv
    let batchnorm_old := net.layer_base_bn
    let b0 := net.stage1.1
    let conv_next_old := b0.conv1
    let downsample_1_old := b0.downsample
    if conv_old.out_channels = 1 then .ok net
    else
      match prune_convolution conv_old filter_index true with
      | none => .error net
      | some conv_new =>
        match prune_batchnorm batchnorm_old filter_index with
        | none => .error net
        | some batchnorm_new =>
          match prune_convolution conv_next_old filter_index false with
          | none => .error net
          | some conv_next_new =>
            let ds_result : Option Downsample :=
              match downsample_1_old with
              | none =>
                  some (mk_downsample conv_next_new.in_channels b0.bn2.num_features)
              | some ds =>
                  match prune_convolution ds.conv filter_index false with
                  | none => none
                  | some c => some { conv := c, bn := ds.bn }
            match ds_result with
            | none => .error net
            | some downsample_1_new =>
              let bb_new : Block :=
                { conv1 := conv_next_new, bn1 := b0.bn1, conv2 := b0.conv2,
                  bn2 := b0.bn2, downsample := some downsample_1_new,
                  stride := b0.stride }
              .ok { net with layer_base_conv := conv_new,
                             layer_base_bn := batchnorm_new,
                             stage1 := (bb_new, net.stage1.2) }
  else
    let index_stage := (layer_index - 1) / 4
    let index_block := (layer_index - 1) % 4
    match getStage net index_stage with
    | none => .error net
    | some (b0, b1) =>
      if index_block = 0 then
        if b0.conv1.out_channels = 1 then .ok net
        else
          match prune_convolution b0.conv1 filter_index true with
          | none => .error net
          | some conv_new =>
            match prune_batchnorm b0.bn1 filter_index with
            | none => .error net
            | some batchnorm_new =>
              match prune_convolution b0.conv2 filter_index false with
              | none => .error net
              | some conv_next_new =>
                let bb_new : Block :=
                  { conv1 := conv_new, bn1 := batchnorm_new,
                    conv2 := conv_next_new, bn2 := b0.bn2,
                    downsample := b0.downsample, stride := b0.stride }
                .ok (setStage net index_stage (bb_new, b1))
      else if index_block = 1 then
        if b0.conv2.out_channels = 1 then .ok net
        else
          match prune_convolution b0.conv2 filter_index true with
          | none => .error net
          | some conv_new =>
            match prune_batchnorm b0.bn2 filter_index with
            | none => .error net
            | some batchnorm_new =>
              match prune_convolution b1.conv1 filter_index false with
              | none => .error net
              | some conv_next_new =>
                let ds1_result : Option Downsample :=
                  match b0.downsample with
                  | none =>
                      some (mk_downsample b0.conv1.in_channels
                              batchnorm_new.num_features)
                  | some ds =>
                      match prune_convolution ds.conv filter_index true with
                      | none => none
                      | some c =>
                          match prune_batchnorm ds.bn filter_index with
                          | none => none
                          | some b => some { conv := c, bn := b }
                match ds1_result with
                | none => .error net
                | some downsample_1_new =>
                  let bb_1_new : Block :=
                    { conv1 := b0.conv1, bn1 := b0.bn1, conv2 := conv_new,
                      bn2 := batchnorm_new,
                      downsample := some downsample_1_new,
                      stride := b0.stride }
                  let ds2_result : Option Downsample :=
                    match b1.downsample with
                    | none =>
                        some (mk_downsample conv_next_new.in_channels
                                b1.bn2.num_features)
                    | some ds =>
                        match prune_convolution ds.conv filter_index false with
                        | none => none
                        | some c => some { conv := c, bn := ds.bn }
                  match ds2_result with
                  | none => .error net
                  | some downsample_2_new =>
                    let bb_2_new : Block :=
                      { conv1 := conv_next_new, bn1 := b1.bn1,
                        conv2 := b1.conv2, bn2 := b1.bn2,
                        downsample := some downsample_2_new,
                        stride := b1.stride }
                    .ok (setStage net index_stage (bb_1_new, bb_2_new))
      else if index_block = 2 then
        if b1.conv1.out_channels = 1 then .ok net
        else
          match prune_convolution b1.conv1 filter_index true with
          | none => .error net
          | some conv_new =>
            match prune_batchnorm b1.bn1 filter_index with
            | none => .error net
            | some batchnorm_new =>
              match prune_convolution b1.conv2 filter_index false with
              | none => .error net
              | some conv_next_new =>
                let bb_new : Block :=
                  { conv1 := conv_new, bn1 := batchnorm_new,
                    conv2 := conv_next_new, bn2 := b1.bn2,
                    downsample := b1.downsample, stride := b1.stride }
                .ok (setStage net index_stage (b0, bb_new))
      else
        if b1.conv2.out_channels = 1 then .ok net
        else
          match prune_convolution b1.conv2 filter_index true with
          | none => .error net
          | some conv_new =>
            match prune_batchnorm b1.bn2 filter_index with
            | none => .error net
            | some batchnorm_new =>
              let ds1_result : Option Downsample :=
                match b1.downsample with
                | none =>
                    some (mk_downsample b1.conv1.in_channels
                            conv_new.out_channels)
                | some ds =>
                    match prune_convolution ds.conv filter_index true with
                    | none => none
                    | some c =>
                        match prune_batchnorm ds.bn filter_index with
                        | none => none
                        | some b => some { conv := c, bn := b }
              match ds1_result with
              | none => .error net
              | some downsample_1_new =>
                let bb_new : Block :=
                  { conv1 := b1.conv1, bn1 := b1.bn1, conv2 := conv_new,
                    bn2 := batchnorm_new,
                    downsample := some downsample_1_new,
                    stride := b1.stride }
                let net1 := setStage net index_stage (b0, bb_new)
                match getSidePrep net1 index_stage with
                | none => .error net1
                | some sp =>
                  match prune_convolution sp filter_index false with
                  | none => .error net1
                  | some sp_new =>
                    let net2 := setSidePrep net1 index_stage sp_new
                    if index_stage ≤ 2 then
                      match getStage net2 (index_stage + 1) with
                      | none => .error net2
                      | some (nb0, nb1) =>
                        match prune_convolution nb0.conv1 filter_index false with
                        | none => .error net2
                        | some conv_next_new =>
                          let ds2_result : Option Downsample :=
                            match nb0.downsample with
                            | none =>
                                some (mk_downsample conv_next_new.in_channels
                                        nb0.bn2.num_features)
                            | some ds =>
                                match prune_convolution ds.conv filter_index false with
                                | none => none
                                | some c => some { conv := c, bn := ds.bn }
                          match ds2_result with
                          | none => .error net2
                          | some downsample_2_new =>
                            let bb_0_new : Block :=
                              { conv1 := conv_next_new, bn1 := nb0.bn1,
                                conv2 := nb0.conv2, bn2 := nb0.bn2,
                                downsample := some downsample_2_new,
                                stride := nb0.stride }
                            .ok (setStage net2 (index_stage + 1)
                                  (bb_0_new, nb1))
                    else .ok net2

/-! ## Structural invariants (§3 of the specification)

`WfConv`/`WfBn` record the tensor-shape consistency torch guarantees for
live modules; `WfBlock`, `WfStage` and `WfNet` record the channel-count
invariants of the data model, strengthened by the facts the pruning
engine itself maintains (a downsample's input width tracks the block
input, and a block without a downsample has stride 1 — true of every
network `OSVOS_RESNET._make_layer` constructs, since a downsample is
built exactly when the stride is not 1 or the widths differ). -/

/-- The weight matrix of a convolution has `out_channels` rows of
`in_channels` entries each. -/
structure WfConv (c : Conv2d) : Prop where
  wlen : c.weight.length = c.out_channels
  rlen : ∀ r ∈ c.weight, r.length = c.in_channels

/-- All parameter vectors of a batch norm have `num_features` entries. -/
structure WfBn (b : BatchNorm2d) : Prop where
  wlen : b.weight.length = b.num_features
  blen : b.bias.length = b.num_features
  mlen : b.running_mean.length = b.num_features
  vlen : b.running_var.length = b.num_features

/-- The block-local invariants of §3. -/
structure WfBlock (b : Block) : Prop where
  wc1 : WfConv b.conv1
  wb1 : WfBn b.bn1
  wc2 : WfConv b.conv2
  wb2 : WfBn b.bn2
  conv1_bn1 : b.conv1.out_channels = b.bn1.num_features
  bn1_conv2 : b.bn1.num_features = b.conv2.in_channels
  conv2_bn2 : b.conv2.out_channels = b.bn2.num_features
  ds_wf : ∀ d, b.downsample = some d →
    WfConv d.conv ∧ WfBn d.bn ∧
    d.conv.out_channels = b.bn2.num_features ∧
    d.bn.num_features = b.bn2.num_features ∧
    d.conv.in_channels = b.conv1.in_channels
  no_ds : b.downsample = none →
    b.stride = 1 ∧ b.conv1.in_channels = b.conv2.out_channels

/-- The output channel count a block feeds forward (its `conv2` output,
which the residual sum forces on the whole block). -/
def blockOut (b : Block) : Nat := b.conv2.out_channels

/-- A stage of two blocks: both well formed and the second block consumes
the first block's output width. -/
structure WfStage (s : Block × Block) : Prop where
  wb0 : WfBlock s.1
  wb1 : WfBlock s.2
  link : s.2.conv1.in_channels = blockOut s.1

/-- The full network invariant of §3: the stem pair agrees, every stage
is well formed, consecutive stages agree on the handed-over width, and
every `side_prep` consumes its stage's final width. -/
structure WfNet (n : Net) : Prop where
  wbase : WfConv n.layer_base_conv
  wbn : WfBn n.layer_base_bn
  base_eq : n.layer_base_conv.out_channels = n.layer_base_bn.num_features
  ws1 : WfStage n.stage1
  ws2 : WfStage n.stage2
  ws3 : WfStage n.stage3
  ws4 : WfStage n.stage4
  base_link : n.stage1.1.conv1.in_channels = n.layer_base_conv.out_channels
  link12 : n.stage2.1.conv1.in_channels = blockOut n.stage1.2
  link23 : n.stage3.1.conv1.in_channels = blockOut n.stage2.2
  link34 : n.stage4.1.conv1.in_channels = blockOut n.stage3.2
  wsp1 : WfConv n.side_prep1
  wsp2 : WfConv n.side_prep2
  wsp3 : WfConv n.side_prep3
  wsp4 : WfConv n.side_prep4
  sp1_link : n.side_prep1.in_channels = blockOut n.stage1.2
  sp2_link : n.side_prep2.in_channels = blockOut n.stage2.2
  sp3_link : n.side_prep3.in_channels = blockOut n.stage3.2
  sp4_link : n.side_prep4.in_channels = blockOut n.stage4.2

/-! ### Basic lemmas about the leaf operations -/

theorem prune_convolution_out_pos {c : Conv2d} {fi : Nat}
    (h : fi < c.out_channels) :
    prune_convolution c fi true = some (conv_drop_out c fi) := by
  simp [prune_convolution, h]

theorem prune_convolution_out_neg {c : Conv2d} {fi : Nat}
    (h : ¬ fi < c.out_channels) :
    prune_convolution c fi true = none := by
  simp [prune_convolution, h]

theorem prune_convolution_in_pos {c : Conv2d} {fi : Nat}
    (h : fi < c.in_channels) :
    prune_convolution c fi false = some (conv_drop_in c fi) := by
  simp [prune_convolution, h]

theorem prune_convolution_in_neg {c : Conv2d} {fi : Nat}
    (h : ¬ fi < c.in_channels) :
    prune_convolution c fi false = none := by
  simp [prune_convolution, h]

theorem prune_batchnorm_pos {b : BatchNorm2d} {fi : Nat}
    (h : fi < b.num_features) :
    prune_batchnorm b fi = some (bn_drop b fi) := by
  simp [prune_batchnorm, h]

@[simp] theorem conv_drop_out_in_channels (c : Conv2d) (fi : Nat) :
    (conv_drop_out c fi).in_channels = c.in_channels := rfl

@[simp] theorem conv_drop_out_out_channels (c : Conv2d) (fi : Nat) :
    (conv_drop_out c fi).out_channels = c.out_channels - 1 := rfl

@[simp] theorem conv_drop_out_stride (c : Conv2d) (fi : Nat) :
    (conv_drop_out c fi).stride = c.stride := rfl

@[simp] theorem conv_drop_in_in_channels (c : Conv2d) (fi : Nat) :
    (conv_drop_in c fi).in_channels = c.in_channels - 1 := rfl

@[simp] theorem conv_drop_in_out_channels (c : Conv2d) (fi : Nat) :
    (conv_drop_in c fi).out_channels = c.out_channels := rfl

@[simp] theorem conv_drop_in_weight (c : Conv2d) (fi : Nat) :
    (conv_drop_in c fi).weight = c.weight.map (fun r => r.eraseIdx fi) := rfl

@[simp] theorem conv_drop_in_bias (c : Conv2d) (fi : Nat) :
    (conv_drop_in c fi).bias = none := rfl

@[simp] theorem bn_drop_num_features (b : BatchNorm2d) (fi : Nat) :
    (bn_drop b fi).num_features = b.num_features - 1 := rfl

theorem wfConv_drop_out {c : Conv2d} (h : WfConv c) {fi : Nat}
    (hf : fi < c.out_channels) : WfConv (conv_drop_out c fi) := by
  constructor
  · simp only [conv_drop_out, conv_drop_out_out_channels]
    rw [List.length_eraseIdx]
    rw [h.wlen]
    simp [hf]
  · intro r hr
    have hsub : (c.weight.eraseIdx fi).Sublist c.weight := List.eraseIdx_sublist _ _
    exact h.rlen r (hsub.mem hr)

theorem wfConv_drop_in {c : Conv2d} (h : WfConv c) {fi : Nat}
    (hf : fi < c.in_channels) : WfConv (conv_drop_in c fi) := by
  constructor
  · simp only [conv_drop_in]
    rw [List.length_map, h.wlen]
  · intro r hr
    simp only [conv_drop_in_weight, List.mem_map] at hr
    obtain ⟨r0, hr0, rfl⟩ := hr
    rw [List.length_eraseIdx]
    rw [h.rlen r0 hr0]
    simp [hf]

theorem wfBn_drop {b : BatchNorm2d} (h : WfBn b) {fi : Nat}
    (hf : fi < b.num_features) : WfBn (bn_drop b fi) := by
  refine ⟨?_, ?_, ?_, ?_⟩ <;>
    simp only [bn_drop, bn_drop_num_features, List.length_replicate,
      List.length_eraseIdx, h.wlen, hf, if_pos]

theorem wf_mk_downsample_conv (ci co : Nat) : WfConv (mk_downsample ci co).conv := by
  constructor
  · simp [mk_downsample]
  · intro r hr
    simp only [mk_downsample, List.mem_replicate] at hr
    simp [mk_downsample, hr.2]

theorem wf_mk_downsample_bn (ci co : Nat) : WfBn (mk_downsample ci co).bn := by
  refine ⟨?_, ?_, ?_, ?_⟩ <;> simp [mk_downsample]

/-! ### Closed forms of the per-branch block rewrites

Under a valid `filter_index`, each branch of `prune_resnet18_conv_layer`
rewrites the affected blocks into one of three closed forms. -/

/-- An "entry" prune (branches `index_block = 0` and `index_block = 2`,
and the pair `conv1`/`bn1`/`conv2` of the stem-adjacent rewrites): the
block's `conv1` loses output channel `filter_index`, `bn1` loses the same
feature, `conv2` loses the same input channel. -/
def entry_block (b : Block) (fi : Nat) : Block :=
  { conv1 := conv_drop_out b.conv1 fi, bn1 := bn_drop b.bn1 fi,
    conv2 := conv_drop_in b.conv2 fi, bn2 := b.bn2,
    downsample := b.downsample, stride := b.stride }

/-- An "exit" prune of a block whose `conv2` output is being removed:
`conv2` loses the output channel, `bn2` the feature, and the downsample
is synthesized (`mk_downsample` over the block's input width and new
output width) if absent, or output-pruned if present. -/
def exit_block (b : Block) (fi : Nat) : Block :=
  { conv1 := b.conv1, bn1 := b.bn1, conv2 := conv_drop_out b.conv2 fi,
    bn2 := bn_drop b.bn2 fi,
    downsample := some (match b.downsample with
      | none => mk_downsample b.conv1.in_channels (b.bn2.num_features - 1)
      | some ds => { conv := conv_drop_out ds.conv fi, bn := bn_drop ds.bn fi }),
    stride := b.stride }

/-- The rewrite of a block that consumes a pruned feature map: its
`conv1` loses the input channel, and its downsample is synthesized
(over the new input width and unchanged output width) if absent, or
input-pruned if present. -/
def into_block (b : Block) (fi : Nat) : Block :=
  { conv1 := conv_drop_in b.conv1 fi, bn1 := b.bn1, conv2 := b.conv2,
    bn2 := b.bn2,
    downsample := some (match b.downsample with
      | none => mk_downsample (b.conv1.in_channels - 1) b.bn2.num_features
      | some ds => { conv := conv_drop_in ds.conv fi, bn := ds.bn }),
    stride := b.stride }

@[simp] theorem entry_block_downsample (b : Block) (fi : Nat) :
    (entry_block b fi).downsample = b.downsample := rfl

@[simp] theorem entry_block_stride (b : Block) (fi : Nat) :
    (entry_block b fi).stride = b.stride := rfl

@[simp] theorem entry_block_in (b : Block) (fi : Nat) :
    (entry_block b fi).conv1.in_channels = b.conv1.in_channels := rfl

@[simp] theorem entry_block_out (b : Block) (fi : Nat) :
    blockOut (entry_block b fi) = blockOut b := rfl

@[simp] theorem exit_block_in (b : Block) (fi : Nat) :
    (exit_block b fi).conv1.in_channels = b.conv1.in_channels := rfl

@[simp] theorem exit_block_out (b : Block) (fi : Nat) :
    blockOut (exit_block b fi) = blockOut b - 1 := rfl

@[simp] theorem exit_block_stride (b : Block) (fi : Nat) :
    (exit_block b fi).stride = b.stride := rfl

@[simp] theorem into_block_in (b : Block) (fi : Nat) :
    (into_block b fi).conv1.in_channels = b.conv1.in_channels - 1 := rfl

@[simp] theorem into_block_out (b : Block) (fi : Nat) :
    blockOut (into_block b fi) = blockOut b := rfl

@[simp] theorem into_block_stride (b : Block) (fi : Nat) :
    (into_block b fi).stride = b.stride := rfl

theorem wf_entry_block {b : Block} (hw : WfBlock b) {fi : Nat}
    (hf : fi < b.conv1.out_channels) : WfBlock (entry_block b fi) := by
  have hbn : fi < b.bn1.num_features := hw.conv1_bn1 ▸ hf
  have hc2 : fi < b.conv2.in_channels := hw.bn1_conv2 ▸ hbn
  refine ⟨wfConv_drop_out hw.wc1 hf, wfBn_drop hw.wb1 hbn,
    wfConv_drop_in hw.wc2 hc2, hw.wb2, ?_, ?_, ?_, ?_, ?_⟩
  · simp [entry_block, hw.conv1_bn1]
  · simp [entry_block, hw.bn1_conv2]
  · exact hw.conv2_bn2
  · intro d hd
    exact hw.ds_wf d hd
  · intro hd
    exact hw.no_ds hd

theorem wf_exit_block {b : Block} (hw : WfBlock b) {fi : Nat}
    (hf : fi < b.conv2.out_channels) : WfBlock (exit_block b fi) := by
  have hbn : fi < b.bn2.num_features := hw.conv2_bn2 ▸ hf
  refine ⟨hw.wc1, hw.wb1, wfConv_drop_out hw.wc2 hf, wfBn_drop hw.wb2 hbn,
    hw.conv1_bn1, hw.bn1_conv2, ?_, ?_, ?_⟩
  · simp [exit_block, hw.conv2_bn2]
  · intro d hd
    simp only [exit_block, Option.some_inj] at hd
    subst hd
    cases hds : b.downsample with
    | none =>
        refine ⟨wf_mk_downsample_conv _ _, wf_mk_downsample_bn _ _, ?_, ?_, ?_⟩ <;>
          simp [mk_downsample, exit_block, hds]
    | some ds =>
        obtain ⟨dwc, dwb, dout, dbn, din⟩ := hw.ds_wf ds hds
        have hdso : fi < ds.conv.out_channels := dout ▸ hbn
        have hdsb : fi < ds.bn.num_features := dbn ▸ hbn
        refine ⟨wfConv_drop_out dwc hdso, wfBn_drop dwb hdsb, ?_, ?_, ?_⟩ <;>
          simp [exit_block, hds, dout, dbn, din]
  · intro hd
    simp [exit_block] at hd

theorem wf_into_block {b : Block} (hw : WfBlock b) {fi : Nat}
    (hf : fi < b.conv1.in_channels) : WfBlock (into_block b fi) := by
  refine ⟨wfConv_drop_in hw.wc1 hf, hw.wb1, hw.wc2, hw.wb2,
    ?_, hw.bn1_conv2, hw.conv2_bn2, ?_, ?_⟩
  · simp [into_block, hw.conv1_bn1]
  · intro d hd
    simp only [into_block, Option.some_inj] at hd
    subst hd
    cases hds : b.downsample with
    | none =>
        refine ⟨wf_mk_downsample_conv _ _, wf_mk_downsample_bn _ _, ?_, ?_, ?_⟩ <;>
          simp [mk_downsample, into_block, hds]
    | some ds =>
        obtain ⟨dwc, dwb, dout, dbn, din⟩ := hw.ds_wf ds hds
        have hdsi : fi < ds.conv.in_channels := din ▸ hf
        refine ⟨wfConv_drop_in dwc hdsi, dwb, ?_, ?_, ?_⟩ <;>
          simp [into_block, hds, dout, dbn, din]
  · intro hd
    simp [into_block] at hd

/-! ### Indexing lemmas -/

theorem getStage_none_of_ge {net : Net} {i : Nat} (h : 4 ≤ i) :
    getStage net i = none := by
  rcases i with _ | _ | _ | _ | i
  · omega
  · omega
  · omega
  · omega
  · rfl

theorem getSidePrep_setStage (net : Net) (i : Nat) (v : Block × Block)
    (j : Nat) : getSidePrep (setStage net i v) j = getSidePrep net j := by
  rcases i with _ | _ | _ | _ | i <;> rcases j with _ | _ | _ | _ | j <;> rfl

theorem getStage_setSidePrep (net : Net) (i : Nat) (v : Conv2d)
    (j : Nat) : getStage (setSidePrep net i v) j = getStage net j := by
  rcases i with _ | _ | _ | _ | i <;> rcases j with _ | _ | _ | _ | j <;> rfl

theorem getStage_setStage_succ (net : Net) (i : Nat) (v : Block × Block) :
    getStage (setStage net i v) (i + 1) = getStage net (i + 1) := by
  rcases i with _ | _ | _ | _ | i <;> rfl

theorem wfStage_of_getStage {net : Net} (hw : WfNet net) {s : Nat}
    {p : Block × Block} (hg : getStage net s = some p) : WfStage p := by
  rcases s with _ | _ | _ | _ | s <;>
    simp only [getStage, Option.some_inj, reduceCtorEq] at hg
  · exact hg ▸ hw.ws1
  · exact hg ▸ hw.ws2
  · exact hg ▸ hw.ws3
  · exact hg ▸ hw.ws4

theorem sidePrep_link_of {net : Net} (hw : WfNet net) {s : Nat}
    {p : Block × Block} {sp : Conv2d} (hg : getStage net s = some p)
    (hsp : getSidePrep net s = some sp) :
    WfConv sp ∧ sp.in_channels = blockOut p.2 := by
  rcases s with _ | _ | _ | _ | s <;>
    simp only [getStage, getSidePrep, Option.some_inj, reduceCtorEq] at hg hsp
  · exact ⟨hsp ▸ hw.wsp1, hsp ▸ hg ▸ hw.sp1_link⟩
  · exact ⟨hsp ▸ hw.wsp2, hsp ▸ hg ▸ hw.sp2_link⟩
  · exact ⟨hsp ▸ hw.wsp3, hsp ▸ hg ▸ hw.sp3_link⟩
  · exact ⟨hsp ▸ hw.wsp4, hsp ▸ hg ▸ hw.sp4_link⟩

theorem next_link_of {net : Net} (hw : WfNet net) {s : Nat}
    {p q : Block × Block} (hg : getStage net s = some p)
    (hn : getStage net (s + 1) = some q) :
    q.1.conv1.in_channels = blockOut p.2 := by
  rcases s with _ | _ | _ | _ | s <;>
    simp only [getStage, Option.some_inj, reduceCtorEq] at hg hn
  · exact hn ▸ hg ▸ hw.link12
  · exact hn ▸ hg ▸ hw.link23
  · exact hn ▸ hg ▸ hw.link34

/-! ### Net-level invariant preservation, one lemma per mutation shape -/

theorem wfNet_stem {net : Net} (hw : WfNet net) {fi : Nat}
    (hf : fi < net.layer_base_conv.out_channels) :
    WfNet { net with layer_base_conv := conv_drop_out net.layer_base_conv fi,
                     layer_base_bn := bn_drop net.layer_base_bn fi,
                     stage1 := (into_block net.stage1.1 fi, net.stage1.2) } := by
  have hin : fi < net.stage1.1.conv1.in_channels := hw.base_link ▸ hf
  refine ⟨wfConv_drop_out hw.wbase hf, wfBn_drop hw.wbn (hw.base_eq ▸ hf),
    ?_, ⟨wf_into_block hw.ws1.wb0 hin, hw.ws1.wb1, ?_⟩,
    hw.ws2, hw.ws3, hw.ws4, ?_, ?_, hw.link23, hw.link34,
    hw.wsp1, hw.wsp2, hw.wsp3, hw.wsp4,
    hw.sp1_link, hw.sp2_link, hw.sp3_link, hw.sp4_link⟩
  · simp [hw.base_eq]
  · simp [hw.ws1.link]
  · simp [hw.base_link]
  · simp [hw.link12]

theorem wfNet_setStage {net : Net} (hw : WfNet net) {s : Nat}
    {p p' : Block × Block} (hg : getStage net s = some p) (hwp : WfStage p')
    (hin : p'.1.conv1.in_channels = p.1.conv1.in_channels)
    (hout : blockOut p'.2 = blockOut p.2) : WfNet (setStage net s p') := by
  rcases s with _ | _ | _ | _ | s <;>
    simp only [getStage, Option.some_inj, reduceCtorEq] at hg <;> subst hg
  · exact ⟨hw.wbase, hw.wbn, hw.base_eq, hwp, hw.ws2, hw.ws3, hw.ws4,
      hin.trans hw.base_link, hw.link12.trans hout.symm,
      hw.link23, hw.link34, hw.wsp1, hw.wsp2, hw.wsp3, hw.wsp4,
      hw.sp1_link.trans hout.symm, hw.sp2_link, hw.sp3_link, hw.sp4_link⟩
  · exact ⟨hw.wbase, hw.wbn, hw.base_eq, hw.ws1, hwp, hw.ws3, hw.ws4,
      hw.base_link, hin.trans hw.link12,
      hw.link23.trans hout.symm, hw.link34,
      hw.wsp1, hw.wsp2, hw.wsp3, hw.wsp4,
      hw.sp1_link, hw.sp2_link.trans hout.symm, hw.sp3_link, hw.sp4_link⟩
  · exact ⟨hw.wbase, hw.wbn, hw.base_eq, hw.ws1, hw.ws2, hwp, hw.ws4,
      hw.base_link, hw.link12, hin.trans hw.link23,
      hw.link34.trans hout.symm, hw.wsp1, hw.wsp2, hw.wsp3, hw.wsp4,
      hw.sp1_link, hw.sp2_link, hw.sp3_link.trans hout.symm, hw.sp4_link⟩
  · exact ⟨hw.wbase, hw.wbn, hw.base_eq, hw.ws1, hw.ws2, hw.ws3, hwp,
      hw.base_link, hw.link12, hw.link23, hin.trans hw.link34,
      hw.wsp1, hw.wsp2, hw.wsp3, hw.wsp4,
      hw.sp1_link, hw.sp2_link, hw.sp3_link, hw.sp4_link.trans hout.symm⟩

theorem wfNet_exit_last_mid {net : Net} (hw : WfNet net) {s fi : Nat}
    {b0 b1 : Block} {sp : Conv2d} {nb0 nb1 : Block}
    (hg : getStage net s = some (b0, b1))
    (hsp : getSidePrep net s = some sp)
    (hn : getStage net (s + 1) = some (nb0, nb1))
    (hf : fi < b1.conv2.out_channels) :
    WfNet (setStage (setSidePrep (setStage net s (b0, exit_block b1 fi)) s
            (conv_drop_in sp fi)) (s + 1) (into_block nb0 fi, nb1)) := by
  rcases s with _ | _ | _ | _ | s <;>
    simp only [getStage, getSidePrep, Option.some_inj, reduceCtorEq] at hg hsp hn
  · have hws := hg ▸ hw.ws1
    have hws2 := hn ▸ hw.ws2
    have hlink : nb0.conv1.in_channels = blockOut b1 := by
      have h := hw.link12; rw [hg, hn] at h; exact h
    have hsplink : sp.in_channels = blockOut b1 := by
      have h := hw.sp1_link; rw [hg, hsp] at h; exact h
    refine ⟨hw.wbase, hw.wbn, hw.base_eq,
      ⟨hws.wb0, wf_exit_block hws.wb1 hf, hws.link⟩,
      ⟨wf_into_block hws2.wb0 (by rw [hlink]; exact hf), hws2.wb1, hws2.link⟩,
      hw.ws3, hw.ws4, ?_, ?_, ?_, hw.link34,
      wfConv_drop_in (hsp ▸ hw.wsp1) (by rw [hsplink]; exact hf),
      hw.wsp2, hw.wsp3, hw.wsp4, ?_, ?_, hw.sp3_link, hw.sp4_link⟩
    · show b0.conv1.in_channels = net.layer_base_conv.out_channels
      have h := hw.base_link; rw [hg] at h; exact h
    · show (into_block nb0 fi).conv1.in_channels = blockOut (exit_block b1 fi)
      simp only [into_block_in, exit_block_out]
      rw [hlink]
    · show net.stage3.1.conv1.in_channels = blockOut nb1
      have h := hw.link23; rw [hn] at h; exact h
    · show (conv_drop_in sp fi).in_channels = blockOut (exit_block b1 fi)
      simp only [conv_drop_in_in_channels, exit_block_out]
      rw [hsplink]
    · show net.side_prep2.in_channels = blockOut nb1
      have h := hw.sp2_link; rw [hn] at h; exact h
  · have hws := hg ▸ hw.ws2
    have hws2 := hn ▸ hw.ws3
    have hlink : nb0.conv1.in_channels = blockOut b1 := by
      have h := hw.link23; rw [hg, hn] at h; exact h
    have hsplink : sp.in_channels = blockOut b1 := by
      have h := hw.sp2_link; rw [hg, hsp] at h; exact h
    refine ⟨hw.wbase, hw.wbn, hw.base_eq, hw.ws1,
      ⟨hws.wb0, wf_exit_block hws.wb1 hf, hws.link⟩,
      ⟨wf_into_block hws2.wb0 (by rw [hlink]; exact hf), hws2.wb1, hws2.link⟩,
      hw.ws4, hw.base_link, ?_, ?_, ?_,
      hw.wsp1, wfConv_drop_in (hsp ▸ hw.wsp2) (by rw [hsplink]; exact hf),
      hw.wsp3, hw.wsp4, hw.sp1_link, ?_, ?_, hw.sp4_link⟩
    · show b0.conv1.in_channels = blockOut net.stage1.2
      have h := hw.link12; rw [hg] at h; exact h
    · show (into_block nb0 fi).conv1.in_channels = blockOut (exit_block b1 fi)
      simp only [into_block_in, exit_block_out]
      rw [hlink]
    · show net.stage4.1.conv1.in_channels = blockOut nb1
      have h := hw.link34; rw [hn] at h; exact h
    · show (conv_drop_in sp fi).in_channels = blockOut (exit_block b1 fi)
      simp only [conv_drop_in_in_channels, exit_block_out]
      rw [hsplink]
    · show net.side_prep3.in_channels = blockOut nb1
      have h := hw.sp3_link; rw [hn] at h; exact h
  · have hws := hg ▸ hw.ws3
    have hws2 := hn ▸ hw.ws4
    have hlink : nb0.conv1.in_channels = blockOut b1 := by
      have h := hw.link34; rw [hg, hn] at h; exact h
    have hsplink : sp.in_channels = blockOut b1 := by
      have h := hw.sp3_link; rw [hg, hsp] at h; exact h
    refine ⟨hw.wbase, hw.wbn, hw.base_eq, hw.ws1, hw.ws2,
      ⟨hws.wb0, wf_exit_block hws.wb1 hf, hws.link⟩,
      ⟨wf_into_block hws2.wb0 (by rw [hlink]; exact hf), hws2.wb1, hws2.link⟩,
      hw.base_link, hw.link12, ?_, ?_,
      hw.wsp1, hw.wsp2, wfConv_drop_in (hsp ▸ hw.wsp3) (by rw [hsplink]; exact hf),
      hw.wsp4, hw.sp1_link, hw.sp2_link, ?_, ?_⟩
    · show b0.conv1.in_channels = blockOut net.stage2.2
      have h := hw.link23; rw [hg] at h; exact h
    · show (into_block nb0 fi).conv1.in_channels = blockOut (exit_block b1 fi)
      simp only [into_block_in, exit_block_out]
      rw [hlink]
    · show (conv_drop_in sp fi).in_channels = blockOut (exit_block b1 fi)
      simp only [conv_drop_in_in_channels, exit_block_out]
      rw [hsplink]
    · show net.side_prep4.in_channels = blockOut nb1
      have h := hw.sp4_link; rw [hn] at h; exact h

theorem wfNet_exit_last_final {net : Net} (hw : WfNet net) {fi : Nat}
    {b0 b1 : Block} {sp : Conv2d}
    (hg : getStage net 3 = some (b0, b1))
    (hsp : getSidePrep net 3 = some sp)
    (hf : fi < b1.conv2.out_channels) :
    WfNet (setSidePrep (setStage net 3 (b0, exit_block b1 fi)) 3
            (conv_drop_in sp fi)) := by
  simp only [getStage, getSidePrep, Option.some_inj] at hg hsp
  have hws := hg ▸ hw.ws4
  have hsplink : sp.in_channels = blockOut b1 := by
    have h := hw.sp4_link; rw [hg, hsp] at h; exact h
  refine ⟨hw.wbase, hw.wbn, hw.base_eq, hw.ws1, hw.ws2, hw.ws3,
    ⟨hws.wb0, wf_exit_block hws.wb1 hf, hws.link⟩,
    hw.base_link, hw.link12, hw.link23, ?_,
    hw.wsp1, hw.wsp2, hw.wsp3,
    wfConv_drop_in (hsp ▸ hw.wsp4) (by rw [hsplink]; exact hf),
    hw.sp1_link, hw.sp2_link, hw.sp3_link, ?_⟩
  · show b0.conv1.in_channels = blockOut net.stage3.2
    have h := hw.link34; rw [hg] at h; exact h
  · show (conv_drop_in sp fi).in_channels = blockOut (exit_block b1 fi)
    simp only [conv_drop_in_in_channels, exit_block_out]
    rw [hsplink]

theorem prune_eq_stem {net : Net} (hw : WfNet net) (fi : Nat) :
    prune_resnet18_conv_layer net 0 fi =
      if net.layer_base_conv.out_channels = 1 then .ok net
      else if fi < net.layer_base_conv.out_channels then
        .ok { net with layer_base_conv := conv_drop_out net.layer_base_conv fi,
                       layer_base_bn := bn_drop net.layer_base_bn fi,
                       stage1 := (into_block net.stage1.1 fi, net.stage1.2) }
      else .error net := by
  by_cases h1 : net.layer_base_conv.out_channels = 1
  · simp [prune_resnet18_conv_layer, h1]
  · by_cases hf : fi < net.layer_base_conv.out_channels
    · have e1 := prune_convolution_out_pos hf
      have e2 := prune_batchnorm_pos (hw.base_eq ▸ hf)
      have e3 := prune_convolution_in_pos (hw.base_link ▸ hf)
      cases hds : net.stage1.1.downsample with
      | none =>
          simp [prune_resnet18_conv_layer, h1, hf, e1, e2, e3, hds, into_block,
            conv_drop_in]
      | some ds =>
          obtain ⟨dwc, dwb, dout, dbn, din⟩ := hw.ws1.wb0.ds_wf ds hds
          have hdin : fi < ds.conv.in_channels := by
            rw [din, hw.base_link]; exact hf
          have e4 := prune_convolution_in_pos hdin
          simp [prune_resnet18_conv_layer, h1, hf, e1, e2, e3, e4, hds, into_block]
    · have e1 := prune_convolution_out_neg hf
      simp [prune_resnet18_conv_layer, h1, hf, e1]

theorem prune_eq_entry0 {net : Net} {li fi : Nat} {b0 b1 : Block}
    (h0 : ¬ li = 0) (hk : (li - 1) % 4 = 0)
    (hs : getStage net ((li - 1) / 4) = some (b0, b1))
    (hwb : WfBlock b0) :
    prune_resnet18_conv_layer net li fi =
      if b0.conv1.out_channels = 1 then .ok net
      else if fi < b0.conv1.out_channels then
        .ok (setStage net ((li - 1) / 4) (entry_block b0 fi, b1))
      else .error net := by
  by_cases h1 : b0.conv1.out_channels = 1
  · simp [prune_resnet18_conv_layer, h0, hk, hs, h1]
  · by_cases hf : fi < b0.conv1.out_channels
    · have e1 := prune_convolution_out_pos hf
      have e2 := prune_batchnorm_pos (hwb.conv1_bn1 ▸ hf)
      have hcin : fi < b0.conv2.in_channels := by
        rw [← hwb.bn1_conv2, ← hwb.conv1_bn1]; exact hf
      have e3 := prune_convolution_in_pos hcin
      simp [prune_resnet18_conv_layer, h0, hk, hs, h1, hf, e1, e2, e3,
        entry_block]
    · simp [prune_resnet18_conv_layer, h0, hk, hs, h1, hf,
        prune_convolution_out_neg hf]

theorem prune_eq_entry2 {net : Net} {li fi : Nat} {b0 b1 : Block}
    (h0 : ¬ li = 0) (hk : (li - 1) % 4 = 2)
    (hs : getStage net ((li - 1) / 4) = some (b0, b1))
    (hwb : WfBlock b1) :
    prune_resnet18_conv_layer net li fi =
      if b1.conv1.out_channels = 1 then .ok net
      else if fi < b1.conv1.out_channels then
        .ok (setStage net ((li - 1) / 4) (b0, entry_block b1 fi))
      else .error net := by
  by_cases h1 : b1.conv1.out_channels = 1
  · simp [prune_resnet18_conv_layer, h0, hk, hs, h1]
  · by_cases hf : fi < b1.conv1.out_channels
    · have e1 := prune_convolution_out_pos hf
      have e2 := prune_batchnorm_pos (hwb.conv1_bn1 ▸ hf)
      have hcin : fi < b1.conv2.in_channels := by
        rw [← hwb.bn1_conv2, ← hwb.conv1_bn1]; exact hf
      have e3 := prune_convolution_in_pos hcin
      simp [prune_resnet18_conv_layer, h0, hk, hs, h1, hf, e1, e2, e3,
        entry_block]
    · simp [prune_resnet18_conv_layer, h0, hk, hs, h1, hf,
        prune_convolution_out_neg hf]

theorem prune_eq_exit_mid {net : Net} {li fi : Nat} {b0 b1 : Block}
    (h0 : ¬ li = 0) (hk : (li - 1) % 4 = 1)
    (hs : getStage net ((li - 1) / 4) = some (b0, b1))
    (hws : WfStage (b0, b1)) :
    prune_resnet18_conv_layer net li fi =
      if b0.conv2.out_channels = 1 then .ok net
      else if fi < b0.conv2.out_channels then
        .ok (setStage net ((li - 1) / 4) (exit_block b0 fi, into_block b1 fi))
      else .error net := by
  by_cases h1 : b0.conv2.out_channels = 1
  · simp [prune_resnet18_conv_layer, h0, hk, hs, h1]
  · by_cases hf : fi < b0.conv2.out_channels
    · have e1 := prune_convolution_out_pos hf
      have e2 := prune_batchnorm_pos (hws.wb0.conv2_bn2 ▸ hf)
      have hcin : fi < b1.conv1.in_channels := by
        rw [hws.link]; exact hf
      have e3 := prune_convolution_in_pos hcin
      cases hds1 : b0.downsample with
      | none =>
          cases hds2 : b1.downsample with
          | none =>
              simp [prune_resnet18_conv_layer, h0, hk, hs, h1, hf, e1, e2, e3,
                hds1, hds2, exit_block, into_block, bn_drop, conv_drop_in]
          | some ds2 =>
              obtain ⟨-, -, -, -, din2⟩ := hws.wb1.ds_wf ds2 hds2
              have e4 := prune_convolution_in_pos
                (show fi < ds2.conv.in_channels by rw [din2, hws.link]; exact hf)
              simp [prune_resnet18_conv_layer, h0, hk, hs, h1, hf, e1, e2, e3,
                e4, hds1, hds2, exit_block, into_block, bn_drop, conv_drop_in]
      | some ds1 =>
          obtain ⟨-, -, dout1, dbn1, -⟩ := hws.wb0.ds_wf ds1 hds1
          have e4 := prune_convolution_out_pos
            (show fi < ds1.conv.out_channels by
              rw [dout1, ← hws.wb0.conv2_bn2]; exact hf)
          have e5 := prune_batchnorm_pos
            (show fi < ds1.bn.num_features by
              rw [dbn1, ← hws.wb0.conv2_bn2]; exact hf)
          cases hds2 : b1.downsample with
          | none =>
              simp [prune_resnet18_conv_layer, h0, hk, hs, h1, hf, e1, e2, e3,
                e4, e5, hds1, hds2, exit_block, into_block, bn_drop, conv_drop_in]
          | some ds2 =>
              obtain ⟨-, -, -, -, din2⟩ := hws.wb1.ds_wf ds2 hds2
              have e6 := prune_convolution_in_pos
                (show fi < ds2.conv.in_channels by rw [din2, hws.link]; exact hf)
              simp [prune_resnet18_conv_layer, h0, hk, hs, h1, hf, e1, e2, e3,
                e4, e5, e6, hds1, hds2, exit_block, into_block, bn_drop,
                conv_drop_in]
    · simp [prune_resnet18_conv_layer, h0, hk, hs, h1, hf,
        prune_convolution_out_neg hf]

theorem prune_eq_exit_last {net : Net} {li fi : Nat} {b0 b1 : Block}
    {sp : Conv2d} {nb0 nb1 : Block}
    (h0 : ¬ li = 0) (hk : (li - 1) % 4 = 3)
    (hs : getStage net ((li - 1) / 4) = some (b0, b1))
    (hsp : getSidePrep net ((li - 1) / 4) = some sp)
    (hle : (li - 1) / 4 ≤ 2)
    (hn : getStage net ((li - 1) / 4 + 1) = some (nb0, nb1))
    (hw : WfNet net) :
    prune_resnet18_conv_layer net li fi =
      if b1.conv2.out_channels = 1 then .ok net
      else if fi < b1.conv2.out_channels then
        .ok (setStage (setSidePrep (setStage net ((li - 1) / 4)
              (b0, exit_block b1 fi)) ((li - 1) / 4) (conv_drop_in sp fi))
              ((li - 1) / 4 + 1) (into_block nb0 fi, nb1))
      else .error net := by
  have hws := wfStage_of_getStage hw hs
  have hcb : b1.conv2.out_channels = b1.bn2.num_features := hws.wb1.conv2_bn2
  have hsplink := (sidePrep_link_of hw hs hsp).2
  have hnl := next_link_of hw hs hn
  by_cases h1 : b1.conv2.out_channels = 1
  · simp [prune_resnet18_conv_layer, h0, hk, hs, h1]
  · by_cases hf : fi < b1.conv2.out_channels
    · have hfb : fi < b1.bn2.num_features := hcb ▸ hf
      have h1b : ¬ b1.bn2.num_features = 1 := by rw [← hcb]; exact h1
      have e1 := prune_convolution_out_pos hf
      have e2 := prune_batchnorm_pos (hws.wb1.conv2_bn2 ▸ hf)
      have esp := prune_convolution_in_pos
        (show fi < sp.in_channels by rw [hsplink]; exact hf)
      have en := prune_convolution_in_pos
        (show fi < nb0.conv1.in_channels by rw [hnl]; exact hf)
      cases hds1 : b1.downsample with
      | none =>
          cases hds2 : nb0.downsample with
          | none =>
              simp [prune_resnet18_conv_layer, h0, hk, hs, h1, hf, e1, e2, esp,
                en, hds1, hds2, getSidePrep_setStage, getStage_setSidePrep,
                getStage_setStage_succ, hsp, hn, hle, exit_block, into_block,
                bn_drop, conv_drop_in, hcb, hfb, h1b]
          | some ds2 =>
              obtain ⟨-, -, -, -, din2⟩ := (wfStage_of_getStage hw hn).wb0.ds_wf ds2 hds2
              have e6 := prune_convolution_in_pos
                (show fi < ds2.conv.in_channels by rw [din2, hnl]; exact hf)
              simp [prune_resnet18_conv_layer, h0, hk, hs, h1, hf, e1, e2, esp,
                en, e6, hds1, hds2, getSidePrep_setStage, getStage_setSidePrep,
                getStage_setStage_succ, hsp, hn, hle, exit_block, into_block,
                bn_drop, conv_drop_in, hcb, hfb, h1b]
      | some ds1 =>
          obtain ⟨-, -, dout1, dbn1, -⟩ := hws.wb1.ds_wf ds1 hds1
          have e4 := prune_convolution_out_pos
            (show fi < ds1.conv.out_channels by
              rw [dout1, ← hcb]; exact hf)
          have e5 := prune_batchnorm_pos
            (show fi < ds1.bn.num_features by
              rw [dbn1, ← hcb]; exact hf)
          cases hds2 : nb0.downsample with
          | none =>
              simp [prune_resnet18_conv_layer, h0, hk, hs, h1, hf, e1, e2, esp,
                en, e4, e5, hds1, hds2, getSidePrep_setStage, getStage_setSidePrep,
                getStage_setStage_succ, hsp, hn, hle, exit_block,
                into_block, bn_drop, conv_drop_in, hcb, hfb, h1b]
          | some ds2 =>
              obtain ⟨-, -, -, -, din2⟩ := (wfStage_of_getStage hw hn).wb0.ds_wf ds2 hds2
              have e6 := prune_convolution_in_pos
                (show fi < ds2.conv.in_channels by rw [din2, hnl]; exact hf)
              simp [prune_resnet18_conv_layer, h0, hk, hs, h1, hf, e1, e2, esp,
                en, e4, e5, e6, hds1, hds2, getSidePrep_setStage, getStage_setSidePrep,
                getStage_setStage_succ, hsp, hn, hle, exit_block,
                into_block, bn_drop, conv_drop_in, hcb, hfb, h1b]
    · simp [prune_resnet18_conv_layer, h0, hk, hs, h1, hf,
        prune_convolution_out_neg hf]

theorem prune_eq_exit_final {net : Net} {li fi : Nat} {b0 b1 : Block}
    {sp : Conv2d}
    (h0 : ¬ li = 0) (hk : (li - 1) % 4 = 3)
    (hs : getStage net ((li - 1) / 4) = some (b0, b1))
    (hsp : getSidePrep net ((li - 1) / 4) = some sp)
    (hgt : ¬ (li - 1) / 4 ≤ 2)
    (hw : WfNet net) :
    prune_resnet18_conv_layer net li fi =
      if b1.conv2.out_channels = 1 then .ok net
      else if fi < b1.conv2.out_channels then
        .ok (setSidePrep (setStage net ((li - 1) / 4)
              (b0, exit_block b1 fi)) ((li - 1) / 4) (conv_drop_in sp fi))
      else .error net := by
  have hws := wfStage_of_getStage hw hs
  have hcb : b1.conv2.out_channels = b1.bn2.num_features := hws.wb1.conv2_bn2
  have hsplink := (sidePrep_link_of hw hs hsp).2
  by_cases h1 : b1.conv2.out_channels = 1
  · simp [prune_resnet18_conv_layer, h0, hk, hs, h1]
  · by_cases hf : fi < b1.conv2.out_channels
    · have hfb : fi < b1.bn2.num_features := hcb ▸ hf
      have h1b : ¬ b1.bn2.num_features = 1 := by rw [← hcb]; exact h1
      have e1 := prune_convolution_out_pos hf
      have e2 := prune_batchnorm_pos (hws.wb1.conv2_bn2 ▸ hf)
      have esp := prune_convolution_in_pos
        (show fi < sp.in_channels by rw [hsplink]; exact hf)
      cases hds1 : b1.downsample with
      | none =>
          simp [prune_resnet18_conv_layer, h0, hk, hs, h1, hf, e1, e2, esp,
            hds1, getSidePrep_setStage, hsp, hgt, exit_block, bn_drop, conv_drop_in,
            hcb, hfb, h1b]
      | some ds1 =>
          obtain ⟨-, -, dout1, dbn1, -⟩ := hws.wb1.ds_wf ds1 hds1
          have e4 := prune_convolution_out_pos
            (show fi < ds1.conv.out_channels by
              rw [dout1, ← hcb]; exact hf)
          have e5 := prune_batchnorm_pos
            (show fi < ds1.bn.num_features by
              rw [dbn1, ← hcb]; exact hf)
          simp [prune_resnet18_conv_layer, h0, hk, hs, h1, hf, e1, e2, esp,
            e4, e5, hds1, getSidePrep_setStage, hsp, hgt, exit_block, bn_drop, conv_drop_in,
            hcb, hfb, h1b]
    · simp [prune_resnet18_conv_layer, h0, hk, hs, h1, hf,
        prune_convolution_out_neg hf]

theorem prune_nostage {net : Net} {li fi : Nat} (h0 : ¬ li = 0)
    (hnone : getStage net ((li - 1) / 4) = none) :
    prune_resnet18_conv_layer net li fi = .error net := by
  simp [prune_resnet18_conv_layer, h0, hnone]

theorem prune_out_of_range {net : Net} {li fi : Nat} (h17 : 17 ≤ li) :
    prune_resnet18_conv_layer net li fi = .error net :=
  prune_nostage (by omega) (getStage_none_of_ge (by omega))

theorem getSidePrep_some_of_getStage {net : Net} {s : Nat} {p : Block × Block}
    (hg : getStage net s = some p) : ∃ sp, getSidePrep net s = some sp := by
  rcases s with _ | _ | _ | _ | s
  · exact ⟨net.side_prep1, rfl⟩
  · exact ⟨net.side_prep2, rfl⟩
  · exact ⟨net.side_prep3, rfl⟩
  · exact ⟨net.side_prep4, rfl⟩
  · exact absurd hg (by simp [getStage])

theorem getStage_succ_some (net : Net) {s : Nat} (hle : s ≤ 2) :
    ∃ q, getStage net (s + 1) = some q := by
  rcases s with _ | _ | _ | s
  · exact ⟨net.stage2, rfl⟩
  · exact ⟨net.stage3, rfl⟩
  · exact ⟨net.stage4, rfl⟩
  · omega

theorem stage_le3_of_some {net : Net} {s : Nat} {p : Block × Block}
    (hg : getStage net s = some p) : s ≤ 3 := by
  by_contra h
  rw [getStage_none_of_ge (by omega)] at hg
  exact absurd hg (by simp)

/-- Single-call invariant preservation: any completed
`prune_resnet18_conv_layer` call on a well-formed network yields a
well-formed network. -/
theorem wfNet_step {net net' : Net} {li fi : Nat} (hw : WfNet net)
    (hok : prune_resnet18_conv_layer net li fi = .ok net') : WfNet net' := by
  by_cases h0 : li = 0
  · subst h0
    rw [prune_eq_stem hw fi] at hok
    split_ifs at hok with h1 hf
    · injection hok with h
      exact h ▸ hw
    · injection hok with h
      exact h ▸ wfNet_stem hw hf
  · rcases hstage : getStage net ((li - 1) / 4) with - | ⟨b0, b1⟩
    · rw [prune_nostage h0 hstage] at hok
      exact absurd hok (by simp)
    · have hws := wfStage_of_getStage hw hstage
      have hk4 : (li - 1) % 4 = 0 ∨ (li - 1) % 4 = 1 ∨ (li - 1) % 4 = 2 ∨
          (li - 1) % 4 = 3 := by omega
      rcases hk4 with hk | hk | hk | hk
      · rw [prune_eq_entry0 h0 hk hstage hws.wb0] at hok
        split_ifs at hok with h1 hf
        · injection hok with h
          exact h ▸ hw
        · injection hok with h
          refine h ▸ wfNet_setStage hw hstage
            ⟨wf_entry_block hws.wb0 hf, hws.wb1, by simpa using hws.link⟩
            (by simp) (by simp)
      · rw [prune_eq_exit_mid h0 hk hstage hws] at hok
        split_ifs at hok with h1 hf
        · injection hok with h
          exact h ▸ hw
        · injection hok with h
          have hb1in : fi < b1.conv1.in_channels := by
            rw [hws.link]; exact hf
          refine h ▸ wfNet_setStage hw hstage
            ⟨wf_exit_block hws.wb0 hf, wf_into_block hws.wb1 hb1in, ?_⟩
            (by simp) (by simp)
          show (into_block b1 fi).conv1.in_channels = blockOut (exit_block b0 fi)
          simp only [into_block_in, exit_block_out]
          rw [hws.link]
      · rw [prune_eq_entry2 h0 hk hstage hws.wb1] at hok
        split_ifs at hok with h1 hf
        · injection hok with h
          exact h ▸ hw
        · injection hok with h
          refine h ▸ wfNet_setStage hw hstage
            ⟨hws.wb0, wf_entry_block hws.wb1 hf, by simpa using hws.link⟩
            rfl (by simp)
      · obtain ⟨sp, hsp⟩ := getSidePrep_some_of_getStage hstage
        by_cases hle : (li - 1) / 4 ≤ 2
        · obtain ⟨⟨nb0, nb1⟩, hn⟩ := getStage_succ_some net hle
          rw [prune_eq_exit_last h0 hk hstage hsp hle hn hw] at hok
          split_ifs at hok with h1 hf
          · injection hok with h
            exact h ▸ hw
          · injection hok with h
            exact h ▸ wfNet_exit_last_mid hw hstage hsp hn hf
        · have hs3 : (li - 1) / 4 = 3 := by
            have := stage_le3_of_some hstage
            omega
          rw [prune_eq_exit_final h0 hk hstage hsp hle hw] at hok
          rw [hs3] at hok hstage hsp
          split_ifs at hok with h1 hf
          · injection hok with h
            exact h ▸ hw
          · injection hok with h
            exact h ▸ wfNet_exit_last_final hw hstage hsp hf
  
/-! ### The flattened layer enumeration and the batch loop -/

/-- The convolution a flattened `layer_index` names, following the
dispatch arithmetic of `prune_resnet18_conv_layer`: `layer_index = 0` is
the stem convolution, otherwise stage `(layer_index - 1) / 4` with
`(layer_index - 1) % 4` selecting `conv1`/`conv2` of block 0 or 1. -/
def target_conv (net : Net) (layer_index : Nat) : Option Conv2d :=
  if layer_index = 0 then some net.layer_base_conv
  else
    match getStage net ((layer_index - 1) / 4) with
    | none => none
    | some (b0, b1) =>
      match (layer_index - 1) % 4 with
      | 0 => some b0.conv1
      | 1 => some b0.conv2
      | 2 => some b1.conv1
      | _ => some b1.conv2

/-- The four prunable convolutions `FilterPruner.forward` visits inside
one stage: `for kt in range(2)`, `conv1` then `conv2` of each block. -/
def stage_convs (s : Block × Block) : List Conv2d :=
  [s.1.conv1, s.1.conv2, s.2.conv1, s.2.conv2]

/-- The prunable convolutions in the order `FilterPruner.forward` visits
and numbers them with the running counter `kk`: the stem convolution
(the only `Conv2d` in `layer_base`), then the four stages in order. -/
def pruner_forward_convs (net : Net) : List Conv2d :=
  [net.layer_base_conv] ++ stage_convs net.stage1 ++ stage_convs net.stage2 ++
    stage_convs net.stage3 ++ stage_convs net.stage4

/-- The `PRUNE_BATCH` loop of `main` in `src/prune.py`: fold
`prune_resnet18_conv_layer` over the plan left to right; a raised
exception aborts the run (`none`). -/
def apply_prune_targets (net : Net) : List (Nat × Nat) → Option Net
  | [] => some net
  | (li, fi) :: rest =>
    match prune_resnet18_conv_layer net li fi with
    | .error _ => none
    | .ok net' => apply_prune_targets net' rest

/-- C1. For every sequence of prune calls that completes (each call
returning normally — in particular every sequence of valid calls), the
final network satisfies every §3 structural invariant (`WfNet` bundles
them: conv1/bn1/conv2 agreement, conv2/bn2 agreement, downsample output
width agreement, block-to-block and stage-to-stage width links, and the
side_prep input width link).  Since the sequence is arbitrary, this
states that the invariants hold after each call of any longer
sequence. -/
theorem C1_invariant_preservation {net : Net} (hw : WfNet net)
    (targets : List (Nat × Nat)) {net' : Net}
    (happ : apply_prune_targets net targets = some net') : WfNet net' := by
  induction targets generalizing net with
  | nil =>
      simp only [apply_prune_targets, Option.some_inj] at happ
      exact happ ▸ hw
  | cons t rest ih =>
      obtain ⟨li, fi⟩ := t
      simp only [apply_prune_targets] at happ
      rcases hstep : prune_resnet18_conv_layer net li fi with m | m <;>
        rw [hstep] at happ
      · exact absurd happ (by simp)
      · exact ih (wfNet_step hw hstep) happ

theorem getStage_some_of_le3 (net : Net) {s : Nat} (h : s ≤ 3) :
    ∃ p, getStage net s = some p := by
  rcases s with _ | _ | _ | _ | s
  · exact ⟨net.stage1, rfl⟩
  · exact ⟨net.stage2, rfl⟩
  · exact ⟨net.stage3, rfl⟩
  · exact ⟨net.stage4, rfl⟩
  · omega

/-- C3. If the convolution targeted by `layer_index` currently has
exactly one output channel, `prune_resnet18_conv_layer` returns the
network unchanged — the very same record, hence every tensor shape and
every weight value is identical — rather than raising an error. -/
theorem C3_floor_noop {net : Net} {li fi : Nat} {c : Conv2d} (h16 : li ≤ 16)
    (hc : target_conv net li = some c) (h1 : c.out_channels = 1) :
    prune_resnet18_conv_layer net li fi = .ok net := by
  interval_cases li <;>
    simp only [target_conv, getStage, Option.some_inj, if_pos, if_neg,
      Nat.succ_ne_zero, reduceIte] at hc <;>
    subst hc <;>
    simp [prune_resnet18_conv_layer, getStage, h1]

/-- C10. The engine's flattened enumeration and dispatch arithmetic
agree and are total exactly on layer indices 0..16: the enumeration
`FilterPruner.forward` produces has length 17 (one stem convolution,
then, visiting exactly two blocks per stage, conv1/conv2 of each block
of each of the four stages); for every index the dispatch arithmetic of
`prune_resnet18_conv_layer` selects exactly the convolution at that
enumeration position (and no index ≥ 17 names any); every call with an
index ≥ 17 raises with the network untouched; and for every index ≤ 16
with an in-range filter index every internally computed stage/block
index is in bounds and the call completes normally. -/
theorem C10_topology (net : Net) (hw : WfNet net) :
    (pruner_forward_convs net).length = 17 ∧
    (∀ li, target_conv net li = (pruner_forward_convs net).get? li) ∧
    (∀ li fi, 17 ≤ li → prune_resnet18_conv_layer net li fi = .error net) ∧
    (∀ li fi c, li ≤ 16 → target_conv net li = some c →
      fi < c.out_channels →
      ∃ n2, prune_resnet18_conv_layer net li fi = .ok n2) := by
  refine ⟨rfl, ?_, ?_, ?_⟩
  · intro li
    by_cases h : li ≤ 16
    · interval_cases li <;> rfl
    · have hne : ¬ li = 0 := by omega
      have hge : (4 : Nat) ≤ (li - 1) / 4 := by omega
      have hlen : (pruner_forward_convs net).length ≤ li := by
        simp only [pruner_forward_convs, stage_convs]
        simp
        omega
      rw [List.get?_eq_none.mpr hlen]
      simp [target_conv, hne, getStage_none_of_ge hge]
  · intro li fi h17
    exact prune_out_of_range h17
  · intro li fi c h16 hc hfi
    by_cases h0 : li = 0
    · subst h0
      simp only [target_conv, reduceIte, Option.some_inj] at hc
      subst hc
      rw [prune_eq_stem hw fi]
      by_cases h1 : net.layer_base_conv.out_channels = 1 <;> simp [h1, hfi]
    · obtain ⟨⟨b0, b1⟩, hs⟩ := getStage_some_of_le3 net
        (show (li - 1) / 4 ≤ 3 by omega)
      have hws := wfStage_of_getStage hw hs
      have hk4 : (li - 1) % 4 = 0 ∨ (li - 1) % 4 = 1 ∨ (li - 1) % 4 = 2 ∨
          (li - 1) % 4 = 3 := by omega
      simp only [target_conv, h0, if_false, hs] at hc
      rcases hk4 with hk | hk | hk | hk <;> rw [hk] at hc <;>
        simp only [Option.some_inj] at hc <;> subst hc
      · rw [prune_eq_entry0 h0 hk hs hws.wb0]
        by_cases h1 : b0.conv1.out_channels = 1 <;> simp [h1, hfi]
      · rw [prune_eq_exit_mid h0 hk hs hws]
        by_cases h1 : b0.conv2.out_channels = 1 <;> simp [h1, hfi]
      · rw [prune_eq_entry2 h0 hk hs hws.wb1]
        by_cases h1 : b1.conv1.out_channels = 1 <;> simp [h1, hfi]
      · obtain ⟨sp, hsp⟩ := getSidePrep_some_of_getStage hs
        by_cases hle : (li - 1) / 4 ≤ 2
        · obtain ⟨⟨nb0, nb1⟩, hn⟩ := getStage_succ_some net hle
          rw [prune_eq_exit_last h0 hk hs hsp hle hn hw]
          by_cases h1 : b1.conv2.out_channels = 1 <;> simp [h1, hfi]
        · rw [prune_eq_exit_final h0 hk hs hsp hle hw]
          by_cases h1 : b1.conv2.out_channels = 1 <;> simp [h1, hfi]

/-! ### Concrete test networks (used by the closed witness statements) -/

/-- A 3×3 convolution with distinctive weights and no bias. -/
def mkConv (ci co : Nat) : Conv2d :=
  { in_channels := ci, out_channels := co, kernel_size := 3, stride := 1,
    padding := 1, dilation := 1, groups := 1,
    weight := List.replicate co (List.replicate ci 7), bias := none }

/-- A convolution carrying a bias vector (as the real `side_prep`
convolutions do: `nn.Conv2d(channels, 16, kernel_size=3, padding=1)`
leaves the default `bias=True`). -/
def mkConvB (ci co : Nat) : Conv2d :=
  { mkConv ci co with bias := some (List.replicate co 9) }

def mkBn (n : Nat) : BatchNorm2d :=
  { num_features := n, eps := 1, momentum := 1, affine := true,
    weight := List.replicate n 2, bias := List.replicate n 3,
    running_mean := List.replicate n 4, running_var := List.replicate n 5 }

/-- A uniform-width residual block without a downsample (stride 1, as in
every block `_make_layer` builds without one). -/
def mkBlockN (n : Nat) : Block :=
  { conv1 := mkConv n n, bn1 := mkBn n, conv2 := mkConv n n, bn2 := mkBn n,
    downsample := none, stride := 1 }

/-- A 1×1 convolution, as used in downsample paths. -/
def mkConv1 (ci co : Nat) : Conv2d :=
  { mkConv ci co with kernel_size := 1, padding := 0 }

/-- A width-changing residual block with a 1×1 downsample. -/
def mkBlockDs (ci co : Nat) : Block :=
  { conv1 := mkConv ci co, bn1 := mkBn co, conv2 := mkConv co co,
    bn2 := mkBn co,
    downsample := some { conv := mkConv1 ci co, bn := mkBn co },
    stride := 1 }

/-- A minimal network with every prunable convolution at one output
channel (each call is a floor no-op). -/
def tinyNet : Net :=
  { layer_base_conv := mkConv 3 1, layer_base_bn := mkBn 1,
    stage1 := (mkBlockN 1, mkBlockN 1), stage2 := (mkBlockN 1, mkBlockN 1),
    stage3 := (mkBlockN 1, mkBlockN 1), stage4 := (mkBlockN 1, mkBlockN 1),
    side_prep1 := mkConvB 1 1, side_prep2 := mkConvB 1 1,
    side_prep3 := mkConvB 1 1, side_prep4 := mkConvB 1 1 }

/-- A small network with a two-channel first stage, so that a real
(non-no-op) prune is possible, and both downsample-bearing and
downsample-free blocks occur. -/
def tiny2 : Net :=
  { layer_base_conv := mkConv 3 1, layer_base_bn := mkBn 1,
    stage1 := (mkBlockDs 1 2, mkBlockN 2), stage2 := (mkBlockDs 2 1, mkBlockN 1),
    stage3 := (mkBlockN 1, mkBlockN 1), stage4 := (mkBlockN 1, mkBlockN 1),
    side_prep1 := mkConvB 2 1, side_prep2 := mkConvB 1 1,
    side_prep3 := mkConvB 1 1, side_prep4 := mkConvB 1 1 }

theorem wfConv_mkConv (ci co : Nat) : WfConv (mkConv ci co) := by
  constructor
  · simp [mkConv]
  · intro r hr
    simp only [mkConv, List.mem_replicate] at hr
    simp [hr.2, mkConv]

theorem wfConv_mkConvB (ci co : Nat) : WfConv (mkConvB ci co) := by
  constructor
  · simp [mkConvB, mkConv]
  · intro r hr
    simp only [mkConvB, mkConv, List.mem_replicate] at hr
    simp [hr.2, mkConvB, mkConv]

theorem wfBn_mkBn (n : Nat) : WfBn (mkBn n) := by
  refine ⟨?_, ?_, ?_, ?_⟩ <;> simp [mkBn]

theorem wfBlock_mkBlockN (n : Nat) : WfBlock (mkBlockN n) := by
  refine ⟨wfConv_mkConv n n, wfBn_mkBn n, wfConv_mkConv n n, wfBn_mkBn n,
    rfl, rfl, rfl, ?_, ?_⟩
  · intro d hd
    exact absurd hd (by simp [mkBlockN])
  · intro _
    exact ⟨rfl, rfl⟩

theorem wfBlock_mkBlockDs (ci co : Nat) : WfBlock (mkBlockDs ci co) := by
  refine ⟨wfConv_mkConv ci co, wfBn_mkBn co, wfConv_mkConv co co, wfBn_mkBn co,
    rfl, rfl, rfl, ?_, ?_⟩
  · intro d hd
    simp only [mkBlockDs, Option.some_inj] at hd
    subst hd
    refine ⟨?_, wfBn_mkBn co, rfl, rfl, rfl⟩
    constructor
    · simp [mkConv1, mkConv]
    · intro r hr
      simp only [mkConv1, mkConv, List.mem_replicate] at hr
      simp [hr.2, mkConv1, mkConv]
  · intro hd
    exact absurd hd (by simp [mkBlockDs])

theorem wfNet_tinyNet : WfNet tinyNet :=
  ⟨wfConv_mkConv 3 1, wfBn_mkBn 1, rfl,
    ⟨wfBlock_mkBlockN 1, wfBlock_mkBlockN 1, rfl⟩,
    ⟨wfBlock_mkBlockN 1, wfBlock_mkBlockN 1, rfl⟩,
    ⟨wfBlock_mkBlockN 1, wfBlock_mkBlockN 1, rfl⟩,
    ⟨wfBlock_mkBlockN 1, wfBlock_mkBlockN 1, rfl⟩,
    rfl, rfl, rfl, rfl,
    wfConv_mkConvB 1 1, wfConv_mkConvB 1 1, wfConv_mkConvB 1 1,
    wfConv_mkConvB 1 1, rfl, rfl, rfl, rfl⟩

theorem wfNet_tiny2 : WfNet tiny2 :=
  ⟨wfConv_mkConv 3 1, wfBn_mkBn 1, rfl,
    ⟨wfBlock_mkBlockDs 1 2, wfBlock_mkBlockN 2, by rfl⟩,
    ⟨wfBlock_mkBlockDs 2 1, wfBlock_mkBlockN 1, by rfl⟩,
    ⟨wfBlock_mkBlockN 1, wfBlock_mkBlockN 1, rfl⟩,
    ⟨wfBlock_mkBlockN 1, wfBlock_mkBlockN 1, rfl⟩,
    rfl, rfl, rfl, rfl,
    wfConv_mkConvB 2 1, wfConv_mkConvB 1 1, wfConv_mkConvB 1 1,
    wfConv_mkConvB 1 1, rfl, rfl, rfl, rfl⟩

/-- C1 witness. A concrete two-call run on `tiny2` (a real prune of
stage 1's last conv2, then a floor no-op) completes, and the invariants
hold on the result. -/
theorem C1_invariant_preservation_witness :
    ∃ n2, apply_prune_targets tiny2 [(4, 0), (8, 0)] = some n2 ∧ WfNet n2 :=
  ⟨_, rfl, C1_invariant_preservation wfNet_tiny2 [(4, 0), (8, 0)] rfl⟩

/-- C3 witness. On `tinyNet` every convolution has one output
channel; pruning layer 1 returns the identical network. -/
theorem C3_floor_noop_witness :
    (1 : Nat) ≤ 16 ∧ target_conv tinyNet 1 = some (mkConv 1 1) ∧
    (mkConv 1 1).out_channels = 1 ∧
    prune_resnet18_conv_layer tinyNet 1 0 = .ok tinyNet :=
  ⟨by omega, rfl, rfl, C3_floor_noop (by omega) rfl rfl⟩

/-- C10 witness. Evaluation of the topology facts on `tiny2`. -/
theorem C10_topology_witness :
    (pruner_forward_convs tiny2).length = 17 ∧
    target_conv tiny2 4 = (pruner_forward_convs tiny2).get? 4 ∧
    prune_resnet18_conv_layer tiny2 20 0 = .error tiny2 ∧
    (∃ n2, prune_resnet18_conv_layer tiny2 4 0 = .ok n2) := by
  have h := C10_topology tiny2 wfNet_tiny2
  exact ⟨h.1, h.2.1 4, h.2.2.1 20 0 (by omega),
    h.2.2.2 4 0 (mkConv 2 2) (by omega) rfl (by decide)⟩

/-- C6 counterexample. A malformed pair is NOT always signaled: on
`tinyNet`, layer 1's convolution has one output channel, so
`filter_index = 5` lies outside its channel range `{0}`, yet the call
hits the 1-channel floor first and silently returns the network
unchanged instead of signaling an error. -/
theorem C6_counterexample_silent_noop :
    target_conv tinyNet 1 = some (mkConv 1 1) ∧
    ¬ 5 < (mkConv 1 1).out_channels ∧
    prune_resnet18_conv_layer tinyNet 1 5 = .ok tinyNet :=
  ⟨rfl, by decide, rfl⟩

/-- C6 (amended). On a well-formed network every call is atomic:
it either completes (returning the fully rewritten network) or signals
an error with the network exactly as it was — no call ends with a
partial mutation; and a malformed `filter_index` outside the target's
channel range IS signaled — except when the target convolution has
exactly one output channel, in which case the floor no-op silently
swallows any `filter_index`. -/
theorem C6_amended_atomicity {net : Net} (hw : WfNet net) (li fi : Nat) :
    ((∃ net2, prune_resnet18_conv_layer net li fi = .ok net2) ∨
      prune_resnet18_conv_layer net li fi = .error net) ∧
    (∀ c, li ≤ 16 → target_conv net li = some c → c.out_channels ≠ 1 →
      c.out_channels ≤ fi →
      prune_resnet18_conv_layer net li fi = .error net) := by
  constructor
  · by_cases h0 : li = 0
    · subst h0
      rw [prune_eq_stem hw fi]
      by_cases h1 : net.layer_base_conv.out_channels = 1
      · exact Or.inl ⟨net, by rw [if_pos h1]⟩
      · by_cases hf : fi < net.layer_base_conv.out_channels
        · exact Or.inl ⟨_, by rw [if_neg h1, if_pos hf]⟩
        · exact Or.inr (by rw [if_neg h1, if_neg hf])
    · rcases hstage : getStage net ((li - 1) / 4) with - | ⟨b0, b1⟩
      · exact Or.inr (prune_nostage h0 hstage)
      · have hws := wfStage_of_getStage hw hstage
        have hk4 : (li - 1) % 4 = 0 ∨ (li - 1) % 4 = 1 ∨ (li - 1) % 4 = 2 ∨
            (li - 1) % 4 = 3 := by omega
        rcases hk4 with hk | hk | hk | hk
        · rw [prune_eq_entry0 h0 hk hstage hws.wb0]
          by_cases h1 : b0.conv1.out_channels = 1
          · exact Or.inl ⟨net, by rw [if_pos h1]⟩
          · by_cases hf : fi < b0.conv1.out_channels
            · exact Or.inl ⟨_, by rw [if_neg h1, if_pos hf]⟩
            · exact Or.inr (by rw [if_neg h1, if_neg hf])
        · rw [prune_eq_exit_mid h0 hk hstage hws]
          by_cases h1 : b0.conv2.out_channels = 1
          · exact Or.inl ⟨net, by rw [if_pos h1]⟩
          · by_cases hf : fi < b0.conv2.out_channels
            · exact Or.inl ⟨_, by rw [if_neg h1, if_pos hf]⟩
            · exact Or.inr (by rw [if_neg h1, if_neg hf])
        · rw [prune_eq_entry2 h0 hk hstage hws.wb1]
          by_cases h1 : b1.conv1.out_channels = 1
          · exact Or.inl ⟨net, by rw [if_pos h1]⟩
          · by_cases hf : fi < b1.conv1.out_channels
            · exact Or.inl ⟨_, by rw [if_neg h1, if_pos hf]⟩
            · exact Or.inr (by rw [if_neg h1, if_neg hf])
        · obtain ⟨sp, hsp⟩ := getSidePrep_some_of_getStage hstage
          by_cases hle : (li - 1) / 4 ≤ 2
          · obtain ⟨⟨nb0, nb1⟩, hn⟩ := getStage_succ_some net hle
            rw [prune_eq_exit_last h0 hk hstage hsp hle hn hw]
            by_cases h1 : b1.conv2.out_channels = 1
            · exact Or.inl ⟨net, by rw [if_pos h1]⟩
            · by_cases hf : fi < b1.conv2.out_channels
              · exact Or.inl ⟨_, by rw [if_neg h1, if_pos hf]⟩
              · exact Or.inr (by rw [if_neg h1, if_neg hf])
          · rw [prune_eq_exit_final h0 hk hstage hsp hle hw]
            by_cases h1 : b1.conv2.out_channels = 1
            · exact Or.inl ⟨net, by rw [if_pos h1]⟩
            · by_cases hf : fi < b1.conv2.out_channels
              · exact Or.inl ⟨_, by rw [if_neg h1, if_pos hf]⟩
              · exact Or.inr (by rw [if_neg h1, if_neg hf])
  · intro c h16 hc h1 hfge
    have hf : ¬ fi < c.out_channels := by omega
    by_cases h0 : li = 0
    · subst h0
      simp only [target_conv, reduceIte, Option.some_inj] at hc
      subst hc
      rw [prune_eq_stem hw fi]
      simp [h1, hf]
    · rcases hstage : getStage net ((li - 1) / 4) with - | ⟨b0, b1⟩
      · exact prune_nostage h0 hstage
      · have hws := wfStage_of_getStage hw hstage
        have hk4 : (li - 1) % 4 = 0 ∨ (li - 1) % 4 = 1 ∨ (li - 1) % 4 = 2 ∨
            (li - 1) % 4 = 3 := by omega
        simp only [target_conv, h0, if_false, hstage] at hc
        rcases hk4 with hk | hk | hk | hk <;> rw [hk] at hc <;>
          simp only [Option.some_inj] at hc <;> subst hc
        · rw [prune_eq_entry0 h0 hk hstage hws.wb0]
          simp [h1, hf]
        · rw [prune_eq_exit_mid h0 hk hstage hws]
          simp [h1, hf]
        · rw [prune_eq_entry2 h0 hk hstage hws.wb1]
          simp [h1, hf]
        · obtain ⟨sp, hsp⟩ := getSidePrep_some_of_getStage hstage
          by_cases hle : (li - 1) / 4 ≤ 2
          · obtain ⟨⟨nb0, nb1⟩, hn⟩ := getStage_succ_some net hle
            rw [prune_eq_exit_last h0 hk hstage hsp hle hn hw]
            simp [h1, hf]
          · rw [prune_eq_exit_final h0 hk hstage hsp hle hw]
            simp [h1, hf]

/-- C6 amended witness. A malformed filter index on a 2-channel
target is signaled with the network unchanged (and the atomicity
disjunction holds there). -/
theorem C6_amended_atomicity_witness :
    prune_resnet18_conv_layer tiny2 4 7 = .error tiny2 ∧
    ((∃ net2, prune_resnet18_conv_layer tiny2 4 7 = .ok net2) ∨
      prune_resnet18_conv_layer tiny2 4 7 = .error tiny2) :=
  ⟨(C6_amended_atomicity wfNet_tiny2 4 7).2 (mkConv 2 2) (by omega) rfl
      (by decide) (by decide),
    (C6_amended_atomicity wfNet_tiny2 4 7).1⟩

/-! ### Evaluations at the failing inputs of the parameter-carrying bugs -/

/-- A batch norm with pairwise distinct parameter entries, to make the
dropped-parameter behavior visible. -/
def bnEx : BatchNorm2d :=
  { num_features := 2, eps := 1, momentum := 1, affine := true,
    weight := [5, 6], bias := [7, 8], running_mean := [9, 10],
    running_var := [11, 12] }

/-- C2 (code bug, evaluated). `prune_batchnorm` deletes entry 0 of
the scale vector as specified, but the new layer's bias comes out as the
fresh-initialization zero vector (not `[8]`, the old bias with entry 0
deleted), and the running statistics come out as fresh zeros/ones (not
`[10]`/`[12]`): the source never copies them, as its own
`# fix missing bias` / commented `track_running_stats` lines admit. -/
theorem C2_prune_batchnorm_eval :
    prune_batchnorm bnEx 0 = some (bn_drop bnEx 0) ∧
    (bn_drop bnEx 0).weight = [6] ∧
    (bn_drop bnEx 0).bias = [0] ∧ ¬ (bn_drop bnEx 0).bias = [8] ∧
    (bn_drop bnEx 0).running_mean = [0] ∧
    ¬ (bn_drop bnEx 0).running_mean = [10] ∧
    (bn_drop bnEx 0).running_var = [1] ∧
    ¬ (bn_drop bnEx 0).running_var = [12] :=
  ⟨rfl, rfl, rfl, by decide, rfl, by decide, rfl, by decide⟩

/-- A stand-in for a stage's `side_prep` convolution: two input
channels, one output channel, and a bias vector (`side_prep` is built
with the default `bias=True`). -/
def spConvEx : Conv2d := mkConvB 2 1

/-- C7 (code bug, evaluated). An input-axis shrink of a biased
convolution does remove only the selected input column — the output
channel count and the remaining weight rows survive — but the bias
vector does not: `prune_convolution` always constructs the replacement
with `bias=False` and never copies the old bias, so `some [9]` becomes
`none` (the source's leading `# fix missing bias` comment marks this). -/
theorem C7_prune_convolution_input_eval :
    spConvEx.bias = some (List.replicate 1 9) ∧
    prune_convolution spConvEx 0 false = some (conv_drop_in spConvEx 0) ∧
    (conv_drop_in spConvEx 0).out_channels = spConvEx.out_channels ∧
    (conv_drop_in spConvEx 0).in_channels = spConvEx.in_channels - 1 ∧
    (conv_drop_in spConvEx 0).weight = [[7]] ∧
    (conv_drop_in spConvEx 0).bias = none :=
  ⟨rfl, rfl, rfl, rfl, by decide, rfl⟩

/-! ### Tracking a block position across one prune call (for C5) -/

/-- Reading `net.layer_stages[s][b]`. -/
def getBlockPos (net : Net) (s b : Nat) : Option Block :=
  match getStage net s with
  | none => none
  | some (b0, b1) =>
    match b with
    | 0 => some b0
    | 1 => some b1
    | _ => none

theorem getStage_setStage_eq {net : Net} {i : Nat} {q : Block × Block}
    (hg : getStage net i = some q) (v : Block × Block) (j : Nat) :
    getStage (setStage net i v) j =
      if j = i then some v else getStage net j := by
  rcases i with _ | _ | _ | _ | i <;> rcases j with _ | _ | _ | _ | j <;>
    simp_all [getStage, setStage]

theorem exit_block_ds {blk : Block} (fi : Nat)
    (hnone : blk.downsample = none) :
    (exit_block blk fi).downsample =
      some (mk_downsample blk.conv1.in_channels (blk.bn2.num_features - 1)) := by
  simp [exit_block, hnone]

theorem into_block_ds {blk : Block} (fi : Nat)
    (hnone : blk.downsample = none) :
    (into_block blk fi).downsample =
      some (mk_downsample (blk.conv1.in_channels - 1) blk.bn2.num_features) := by
  simp [into_block, hnone]

theorem wfBlock_of_getBlockPos {net : Net} (hw : WfNet net) {s b : Nat}
    {blk : Block} (hb : getBlockPos net s b = some blk) : WfBlock blk := by
  unfold getBlockPos at hb
  rcases hgs : getStage net s with - | ⟨x, y⟩ <;> rw [hgs] at hb
  · exact absurd hb (by simp)
  · have hws := wfStage_of_getStage hw hgs
    rcases b with _ | _ | b
    · simp only [Option.some_inj] at hb
      exact hb ▸ hws.wb0
    · simp only [Option.some_inj] at hb
      exact hb ▸ hws.wb1
    · exact absurd hb (by simp)

/-- Across one completed prune call, the block at any fixed position is
unchanged or rewritten by exactly one of the three closed forms. -/
theorem blocks_rel {net net2 : Net} {li fi : Nat} (hw : WfNet net)
    (hok : prune_resnet18_conv_layer net li fi = .ok net2)
    {s b : Nat} {blk blk2 : Block}
    (hb : getBlockPos net s b = some blk)
    (hb2 : getBlockPos net2 s b = some blk2) :
    blk2 = blk ∨ blk2 = entry_block blk fi ∨ blk2 = exit_block blk fi ∨
      blk2 = into_block blk fi := by
  by_cases h0 : li = 0
  · subst h0
    rw [prune_eq_stem hw fi] at hok
    split_ifs at hok with h1 hf
    · injection hok with h
      subst h
      rw [hb] at hb2
      injection hb2 with h2
      exact Or.inl h2.symm
    · injection hok with h
      subst h
      have hgs2 : ∀ j, getStage { net with
            layer_base_conv := conv_drop_out net.layer_base_conv fi,
            layer_base_bn := bn_drop net.layer_base_bn fi,
            stage1 := (into_block net.stage1.1 fi, net.stage1.2) } j =
          if j = 0 then some (into_block net.stage1.1 fi, net.stage1.2)
          else getStage net j := by
        intro j
        rcases j with _ | _ | _ | _ | j <;> simp [getStage]
      unfold getBlockPos at hb hb2
      rw [hgs2 s] at hb2
      by_cases hs0 : s = 0
      · subst hs0
        rw [if_pos rfl] at hb2
        rw [show getStage net 0 = some net.stage1 from rfl] at hb
        rcases b with _ | _ | b
        · simp only [Option.some_inj] at hb hb2
          subst hb
          subst hb2
          exact Or.inr (Or.inr (Or.inr rfl))
        · simp only [Option.some_inj] at hb hb2
          subst hb
          subst hb2
          exact Or.inl rfl
        · exact absurd hb2 (by simp)
      · rw [if_neg hs0] at hb2
        rw [hb] at hb2
        injection hb2 with h2
        exact Or.inl h2.symm
  · rcases hstage : getStage net ((li - 1) / 4) with - | ⟨b0, b1⟩
    · rw [prune_nostage h0 hstage] at hok
      exact absurd hok (by simp)
    · have hws := wfStage_of_getStage hw hstage
      have hk4 : (li - 1) % 4 = 0 ∨ (li - 1) % 4 = 1 ∨ (li - 1) % 4 = 2 ∨
          (li - 1) % 4 = 3 := by omega
      rcases hk4 with hk | hk | hk | hk
      · rw [prune_eq_entry0 h0 hk hstage hws.wb0] at hok
        split_ifs at hok with h1 hf
        · injection hok with h
          subst h
          rw [hb] at hb2
          injection hb2 with h2
          exact Or.inl h2.symm
        · injection hok with h
          subst h
          unfold getBlockPos at hb hb2
          rw [getStage_setStage_eq hstage] at hb2
          by_cases hsσ : s = (li - 1) / 4
          · rw [if_pos hsσ] at hb2
            rw [hsσ, hstage] at hb
            rcases b with _ | _ | b
            · simp only [Option.some_inj] at hb hb2
              subst hb
              subst hb2
              exact Or.inr (Or.inl rfl)
            · simp only [Option.some_inj] at hb hb2
              subst hb
              subst hb2
              exact Or.inl rfl
            · exact absurd hb2 (by simp)
          · rw [if_neg hsσ] at hb2
            rw [hb] at hb2
            injection hb2 with h2
            exact Or.inl h2.symm
      · rw [prune_eq_exit_mid h0 hk hstage hws] at hok
        split_ifs at hok with h1 hf
        · injection hok with h
          subst h
          rw [hb] at hb2
          injection hb2 with h2
          exact Or.inl h2.symm
        · injection hok with h
          subst h
          unfold getBlockPos at hb hb2
          rw [getStage_setStage_eq hstage] at hb2
          by_cases hsσ : s = (li - 1) / 4
          · rw [if_pos hsσ] at hb2
            rw [hsσ, hstage] at hb
            rcases b with _ | _ | b
            · simp only [Option.some_inj] at hb hb2
              subst hb
              subst hb2
              exact Or.inr (Or.inr (Or.inl rfl))
            · simp only [Option.some_inj] at hb hb2
              subst hb
              subst hb2
              exact Or.inr (Or.inr (Or.inr rfl))
            · exact absurd hb2 (by simp)
          · rw [if_neg hsσ] at hb2
            rw [hb] at hb2
            injection hb2 with h2
            exact Or.inl h2.symm
      · rw [prune_eq_entry2 h0 hk hstage hws.wb1] at hok
        split_ifs at hok with h1 hf
        · injection hok with h
          subst h
          rw [hb] at hb2
          injection hb2 with h2
          exact Or.inl h2.symm
        · injection hok with h
          subst h
          unfold getBlockPos at hb hb2
          rw [getStage_setStage_eq hstage] at hb2
          by_cases hsσ : s = (li - 1) / 4
          · rw [if_pos hsσ] at hb2
            rw [hsσ, hstage] at hb
            rcases b with _ | _ | b
            · simp only [Option.some_inj] at hb hb2
              subst hb
              subst hb2
              exact Or.inl rfl
            · simp only [Option.some_inj] at hb hb2
              subst hb
              subst hb2
              exact Or.inr (Or.inl rfl)
            · exact absurd hb2 (by simp)
          · rw [if_neg hsσ] at hb2
            rw [hb] at hb2
            injection hb2 with h2
            exact Or.inl h2.symm
      · obtain ⟨sp, hsp⟩ := getSidePrep_some_of_getStage hstage
        by_cases hle : (li - 1) / 4 ≤ 2
        · obtain ⟨⟨nb0, nb1⟩, hn⟩ := getStage_succ_some net hle
          rw [prune_eq_exit_last h0 hk hstage hsp hle hn hw] at hok
          split_ifs at hok with h1 hf
          · injection hok with h
            subst h
            rw [hb] at hb2
            injection hb2 with h2
            exact Or.inl h2.symm
          · injection hok with h
            subst h
            have hM : getStage (setSidePrep (setStage net ((li - 1) / 4)
                (b0, exit_block b1 fi)) ((li - 1) / 4) (conv_drop_in sp fi))
                ((li - 1) / 4 + 1) = some (nb0, nb1) := by
              rw [getStage_setSidePrep, getStage_setStage_succ]
              exact hn
            unfold getBlockPos at hb hb2
            rw [getStage_setStage_eq hM] at hb2
            by_cases hsσ1 : s = (li - 1) / 4 + 1
            · rw [if_pos hsσ1] at hb2
              rw [hsσ1, hn] at hb
              rcases b with _ | _ | b
              · simp only [Option.some_inj] at hb hb2
                subst hb
                subst hb2
                exact Or.inr (Or.inr (Or.inr rfl))
              · simp only [Option.some_inj] at hb hb2
                subst hb
                subst hb2
                exact Or.inl rfl
              · exact absurd hb2 (by simp)
            · rw [if_neg hsσ1, getStage_setSidePrep,
                getStage_setStage_eq hstage] at hb2
              by_cases hsσ : s = (li - 1) / 4
              · rw [if_pos hsσ] at hb2
                rw [hsσ, hstage] at hb
                rcases b with _ | _ | b
                · simp only [Option.some_inj] at hb hb2
                  subst hb
                  subst hb2
                  exact Or.inl rfl
                · simp only [Option.some_inj] at hb hb2
                  subst hb
                  subst hb2
                  exact Or.inr (Or.inr (Or.inl rfl))
                · exact absurd hb2 (by simp)
              · rw [if_neg hsσ] at hb2
                rw [hb] at hb2
                injection hb2 with h2
                exact Or.inl h2.symm
        · rw [prune_eq_exit_final h0 hk hstage hsp hle hw] at hok
          split_ifs at hok with h1 hf
          · injection hok with h
            subst h
            rw [hb] at hb2
            injection hb2 with h2
            exact Or.inl h2.symm
          · injection hok with h
            subst h
            unfold getBlockPos at hb hb2
            rw [getStage_setSidePrep, getStage_setStage_eq hstage] at hb2
            by_cases hsσ : s = (li - 1) / 4
            · rw [if_pos hsσ] at hb2
              rw [hsσ, hstage] at hb
              rcases b with _ | _ | b
              · simp only [Option.some_inj] at hb hb2
                subst hb
                subst hb2
                exact Or.inl rfl
              · simp only [Option.some_inj] at hb hb2
                subst hb
                subst hb2
                exact Or.inr (Or.inr (Or.inl rfl))
              · exact absurd hb2 (by simp)
            · rw [if_neg hsσ] at hb2
              rw [hb] at hb2
              injection hb2 with h2
              exact Or.inl h2.symm

/-- C5. Every downsample path a prune call synthesizes (at whichever
of its synthesis sites: stem-to-first-block, exit-of-block-to-next-block,
last-block-of-stage, or propagation into the next stage's first block —
i.e., any block position that had no downsample before the call and has
one after it) consists of a 1×1 convolution with no bias whose stride
(hardcoded 1 in the source) matches the surrounding block's stride, and
a batch norm initialized to scale 1 and bias 0. -/
theorem C5_synthesized_downsample {net net2 : Net} (li fi : Nat)
    (hw : WfNet net)
    (hok : prune_resnet18_conv_layer net li fi = .ok net2)
    (s b : Nat) {blk blk2 : Block} {d : Downsample}
    (hb : getBlockPos net s b = some blk)
    (hb2 : getBlockPos net2 s b = some blk2)
    (hnone : blk.downsample = none) (hsome : blk2.downsample = some d) :
    d.conv.kernel_size = 1 ∧ d.conv.bias = none ∧ d.conv.stride = 1 ∧
    d.conv.stride = blk2.stride ∧
    d.bn.weight = List.replicate d.bn.num_features 1 ∧
    d.bn.bias = List.replicate d.bn.num_features 0 := by
  have hwb := wfBlock_of_getBlockPos hw hb
  have hstr1 : blk.stride = 1 := (hwb.no_ds hnone).1
  rcases blocks_rel hw hok hb hb2 with h | h | h | h
  · subst h
    rw [hnone] at hsome
    exact absurd hsome (by simp)
  · subst h
    rw [entry_block_downsample, hnone] at hsome
    exact absurd hsome (by simp)
  · subst h
    rw [exit_block_ds fi hnone] at hsome
    injection hsome with hd
    subst hd
    refine ⟨rfl, rfl, rfl, ?_, rfl, rfl⟩
    rw [exit_block_stride, hstr1]
    rfl
  · subst h
    rw [into_block_ds fi hnone] at hsome
    injection hsome with hd
    subst hd
    refine ⟨rfl, rfl, rfl, ?_, rfl, rfl⟩
    rw [into_block_stride, hstr1]
    rfl

/-- C5 witness. On `tiny2`, pruning layer 4 (stage 1's exit, last in
stage) synthesizes a downsample for the downsample-free second block of
stage 1; the synthesized path has all the stated properties. -/
theorem C5_synthesized_downsample_witness :
    ∃ n2 blk2 d,
      prune_resnet18_conv_layer tiny2 4 0 = .ok n2 ∧
      getBlockPos tiny2 0 1 = some (mkBlockN 2) ∧
      (mkBlockN 2).downsample = none ∧
      getBlockPos n2 0 1 = some blk2 ∧ blk2.downsample = some d ∧
      (d.conv.kernel_size = 1 ∧ d.conv.bias = none ∧ d.conv.stride = 1 ∧
       d.conv.stride = blk2.stride ∧
       d.bn.weight = List.replicate d.bn.num_features 1 ∧
       d.bn.bias = List.replicate d.bn.num_features 0) :=
  ⟨_, _, _, rfl, rfl, rfl, rfl, rfl,
    C5_synthesized_downsample 4 0 wfNet_tiny2 rfl 0 1 rfl rfl rfl rfl⟩

/-! ## The filter importance ranker (`FilterPruner`)

Activations and gradients are 4-dimensional float tensors indexed
`[batch][channel][height][width]`; exact rationals stand in for the
floats (the facts below are about which reductions and scalings are
applied, not about rounding). -/

abbrev Tensor4 := List (List (List (List ℚ)))

/-- Elementwise `activation * grad`. -/
def tmul (a g : Tensor4) : Tensor4 :=
  List.zipWith (fun ab gb =>
    List.zipWith (fun ac gc =>
      List.zipWith (fun ah gh =>
        List.zipWith (fun x y => x * y) ah gh) ac gc) ab gb) a g

/-- Torch `.sum(dim=3)`. -/
def sum_dim3 (t : Tensor4) : List (List (List ℚ)) :=
  t.map (fun b => b.map (fun c => c.map List.sum))

/-- Torch `.sum(dim=2)` applied after `sum_dim3`. -/
def sum_dim2 (t : List (List (List ℚ))) : List (List ℚ) :=
  t.map (fun b => b.map List.sum)

/-- Torch `.sum(dim=0)`: fold the batch dimension of a `[batch][channel]`
tensor, leaving one entry per channel. -/
def sum_dim0 (t : List (List ℚ)) : List ℚ :=
  match t with
  | [] => []
  | x :: xs => xs.foldl (fun acc y => List.zipWith (fun u v => u + v) acc y) x

def shape0 (t : Tensor4) : Nat := t.length

def shape2 (t : Tensor4) : Nat := ((t.headD []).headD []).length

def shape3 (t : Tensor4) : Nat := (((t.headD []).headD []).headD []).length

/-- The per-channel vector `FilterPruner.compute_rank` computes for one
minibatch before accumulating:
`values = (activation * grad).sum(dim=3).sum(dim=2).sum(dim=0)`, then
`values = values / (activation.shape[0] * activation.shape[2] *
activation.shape[3])` (the source comment reads "Normalize the rank by
the filter dimensions"). -/
def compute_rank_values (activation grad : Tensor4) : List ℚ :=
  (sum_dim0 (sum_dim2 (sum_dim3 (tmul activation grad)))).map
    (fun v => v / ((shape0 activation * shape2 activation *
        shape3 activation : Nat) : ℚ))

/-- One `compute_rank` call's effect on `filter_ranks[activation_index]`:
a missing entry is zero-initialized (`FloatTensor(...).zero_()`), then
`values` is added. -/
def compute_rank_step (filter_ranks : Option (List ℚ))
    (activation grad : Tensor4) : List ℚ :=
  let values := compute_rank_values activation grad
  let prev := filter_ranks.getD (List.replicate values.length 0)
  List.zipWith (fun u v => u + v) prev values

/-- The per-channel scalar exactly as the specification describes it:
"the product `activation ⊙ gradient` is computed and reduced by summing
over the spatial and batch dimensions, leaving one scalar per output
channel" — the sum over width, then height, per batch element and
channel, then over the batch, with no further scaling. -/
def spec_rank_sum (activation grad : Tensor4) : List ℚ :=
  sum_dim0 ((tmul activation grad).map
    (fun b => b.map (fun c => (c.map List.sum).sum)))

/-- A 1×1×1×2 tensor of ones. -/
def t8ex : Tensor4 := [[[[1, 1]]]]

/-- C8 counterexample. On a one-sample, one-channel, 1×2 activation
of ones with gradient ones, the sum over batch and spatial dimensions is
2, but `compute_rank` accumulates 1: the source divides by
`shape[0] * shape[2] * shape[3] = 2` before accumulating, so the
accumulated scalar is NOT the plain sum. -/
theorem C8_counterexample_scaling :
    compute_rank_step none t8ex t8ex = [1] ∧
    spec_rank_sum t8ex t8ex = [2] ∧
    ¬ compute_rank_step none t8ex t8ex = spec_rank_sum t8ex t8ex := by
  refine ⟨?_, ?_, ?_⟩
  · show List.zipWith _ _ _ = _
    norm_num [compute_rank_values, sum_dim0, sum_dim2, sum_dim3, tmul,
      shape0, shape2, shape3, t8ex]
  · norm_num [spec_rank_sum, sum_dim0, tmul, t8ex]
  · intro h
    rw [show compute_rank_step none t8ex t8ex = [1] by
        show List.zipWith _ _ _ = _
        norm_num [compute_rank_values, sum_dim0, sum_dim2, sum_dim3, tmul,
          shape0, shape2, shape3, t8ex],
      show spec_rank_sum t8ex t8ex = [2] by
        norm_num [spec_rank_sum, sum_dim0, tmul, t8ex]] at h
    exact absurd h (by norm_num)

theorem zipWith_add_replicate_zero (l : List ℚ) :
    List.zipWith (fun u v => u + v) (List.replicate l.length 0) l = l := by
  induction l with
  | nil => rfl
  | cons x xs ih => simp [List.replicate, ih]

/-- C8 (amended). For each minibatch, the scalar `compute_rank`
accumulates for a channel equals the `activation ⊙ gradient` product
summed over the spatial and batch dimensions **divided by
`batch * height * width`** (an extra normalization the source applies
before accumulation); shown here for the first accumulation into a
fresh (zero) score vector. -/
theorem C8_amended_scaled_sum (activation grad : Tensor4) :
    compute_rank_step none activation grad =
      (spec_rank_sum activation grad).map
        (fun v => v / ((shape0 activation * shape2 activation *
            shape3 activation : Nat) : ℚ)) := by
  show List.zipWith _ _ _ = _
  simp only [Option.getD_none]
  rw [zipWith_add_replicate_zero]
  show (sum_dim0 (sum_dim2 (sum_dim3 (tmul activation grad)))).map _ = _
  have h : sum_dim2 (sum_dim3 (tmul activation grad)) =
      (tmul activation grad).map
        (fun b => b.map (fun c => (c.map List.sum).sum)) := by
    simp [sum_dim2, sum_dim3, List.map_map, Function.comp]
  rw [spec_rank_sum, h]

/-! ### The pruning plan (`lowest_ranking_filters` / `get_prunning_plan`) -/

/-- One insertion step of a stable ascending sort. -/
def insort_by (le : α → α → Bool) (x : α) : List α → List α
  | [] => [x]
  | y :: ys => if le x y then x :: y :: ys else y :: insort_by le x ys

/-- Python's `sorted` (a stable ascending sort), modelled as insertion
sort; `heapq.nsmallest(n, data, key)` is documented as equivalent to
`sorted(data, key=key)[:n]`. -/
def sorted_by (le : α → α → Bool) (l : List α) : List α :=
  l.foldr (insort_by le) []

/-- Method `FilterPruner.lowest_ranking_filters`: walk the per-layer score
vectors in layer order (`for i in sorted(self.filter_ranks.keys())`;
`activation_to_layer` is the identity because `activation_index` and
`kk` are incremented in lockstep in `forward`), skip layers on the
skip list, emit `(layer, filter, score)` triples, and keep the `n`
globally smallest by score. -/
def lowest_ranking_filters (filter_ranks : List (List ℚ))
    (skip_layer : List Nat) (n : Nat) : List (Nat × Nat × ℚ) :=
  let data := (List.range filter_ranks.length).flatMap (fun i =>
    if i ∈ skip_layer then []
    else (List.range (filter_ranks.getD i []).length).map
      (fun j => (i, j, (filter_ranks.getD i []).getD j 0)))
  (sorted_by (fun x y => decide (x.2.2 ≤ y.2.2)) data).take n

/-- Key order of a CPython (3.6+) dict built by insertion: first
appearance. -/
def first_appearance (l : List Nat) : List Nat :=
  l.foldl (fun acc x => if x ∈ acc then acc else acc ++ [x]) []

/-- The grouping/remapping phase of `FilterPruner.get_prunning_plan`
(lines 207–223): group the selected `(layer, filter)` pairs by layer in
a dict (keys in first-appearance order, values in encounter order),
sort each layer's filter indices ascending, replace the index at sorted
position `i` by `index - i`, and emit the groups in dict order. -/
def plan_from_selection (filters_to_prune : List (Nat × Nat × ℚ)) :
    List (Nat × Nat) :=
  let keys := first_appearance (filters_to_prune.map (fun t => t.1))
  let per_layer := keys.map (fun l =>
    (l, (filters_to_prune.filter (fun t => t.1 == l)).map (fun t => t.2.1)))
  let adjusted := per_layer.map (fun p =>
    (p.1, ((sorted_by (fun u v => decide (u ≤ v)) p.2).enum).map
      (fun e => e.2 - e.1)))
  adjusted.flatMap (fun p => p.2.map (fun f => (p.1, f)))

/-- Method `FilterPruner.get_prunning_plan`. -/
def get_prunning_plan (filter_ranks : List (List ℚ)) (skip_layer : List Nat)
    (n : Nat) : List (Nat × Nat) :=
  plan_from_selection (lowest_ranking_filters filter_ranks skip_layer n)

/-- C4. For a selection of filters {2, 5, 7} within one layer (layer
3 here; the scores are arbitrary), the emitted adjusted sequence is
{2, 4, 5}; and applying the engine's output-axis removal to a layer in
that emitted order removes exactly the originally selected rows
{2, 5, 7} (right side: the original weight matrix with rows 7, 5 and 2
deleted). -/
theorem C4_remap_correctness :
    (∀ s t u : ℚ, plan_from_selection [(3, 2, s), (3, 5, t), (3, 7, u)] =
      [(3, 2), (3, 4), (3, 5)]) ∧
    (∀ c : Conv2d, 8 ≤ c.weight.length →
      (conv_drop_out (conv_drop_out (conv_drop_out c 2) 4) 5).weight =
        ((c.weight.eraseIdx 7).eraseIdx 5).eraseIdx 2) := by
  constructor
  · intro s t u
    rfl
  · intro c hlen
    show ((c.weight.eraseIdx 2).eraseIdx 4).eraseIdx 5 = _
    rcases hw : c.weight with - | ⟨x0, - | ⟨x1, - | ⟨x2, - | ⟨x3, - |
      ⟨x4, - | ⟨x5, - | ⟨x6, - | ⟨x7, rest⟩⟩⟩⟩⟩⟩⟩⟩ <;>
      rw [hw] at hlen <;> simp at hlen <;> rfl

/-- C4 witness. The removal composition evaluated on a concrete
8-row weight matrix. -/
theorem C4_remap_correctness_witness :
    plan_from_selection [(3, 2, 10), (3, 5, 20), (3, 7, 30)] =
      [(3, 2), (3, 4), (3, 5)] ∧
    (8 ≤ (mkConv 1 8).weight.length ∧
      (conv_drop_out (conv_drop_out (conv_drop_out (mkConv 1 8) 2) 4) 5).weight =
        (((mkConv 1 8).weight.eraseIdx 7).eraseIdx 5).eraseIdx 2) :=
  ⟨C4_remap_correctness.1 10 20 30,
    by decide, C4_remap_correctness.2 (mkConv 1 8) (by decide)⟩

/-- C9 counterexample. With layer 0 holding one filter of score 5
and layer 1 one filter of score 3, selecting both produces the plan
`[(1,0), (0,0)]`: the groups follow the score-sorted selection's
first-appearance order (a CPython dict preserves insertion order), so
layer 1 precedes layer 0 — NOT the flattened enumeration order. -/
theorem C9_counterexample_group_order :
    get_prunning_plan [[5], [3]] [] 2 = [(1, 0), (0, 0)] ∧
    ¬ List.Sorted (· ≤ ·)
      ((get_prunning_plan [[5], [3]] [] 2).map Prod.fst) := by
  constructor
  · rfl
  · intro h
    rw [show (get_prunning_plan [[5], [3]] [] 2).map Prod.fst = [1, 0]
        from rfl] at h
    simp [List.Sorted] at h

theorem insort_by_length (le : α → α → Bool) (x : α) (l : List α) :
    (insort_by le x l).length = l.length + 1 := by
  induction l with
  | nil => rfl
  | cons y ys ih =>
      simp only [insort_by]
      split
      · rfl
      · simp [ih]

theorem sorted_by_length (le : α → α → Bool) (l : List α) :
    (sorted_by le l).length = l.length := by
  induction l with
  | nil => rfl
  | cons x xs ih =>
      show (insort_by le x (sorted_by le xs)).length = _
      rw [insort_by_length, ih]
      rfl

/-- C9 (amended). The plan lists its `(layer, adjusted_index)` pairs
grouped by layer — each layer's entries contiguous and as many as that
layer has selected filters — but the groups appear in the order each
layer FIRST APPEARS in the score-ascending selection (CPython dict
insertion order), not in the flattened layer enumeration order. -/
theorem C9_amended_first_appearance_order (sel : List (Nat × Nat × ℚ)) :
    (plan_from_selection sel).map Prod.fst =
      (first_appearance (sel.map (fun t => t.1))).flatMap
        (fun l => List.replicate
          ((sel.filter (fun t => t.1 == l)).length) l) := by
  show ((((first_appearance _).map _).map _).flatMap _).map _ = _
  rw [List.map_flatMap, List.map_map, List.flatMap_map]
  congr 1
  funext l
  simp only [List.map_map, Function.comp]
  rw [show (Prod.fst ∘ (fun f => ((l, f) : Nat × Nat)) ∘
      fun e : Nat × Nat => e.2 - e.1) = (fun _ : Nat × Nat => l) from rfl]
  rw [List.map_const', List.enum_length, sorted_by_length, List.length_map]
